import Mathlib

/-!
Verification development for the frame-lifecycle and GPU-resource-lifetime
core of the tegne-rs / draw-it rendering engine.

The definitions below are shallow embeddings of the Rust sources, chiefly
of the two Device variants (draw-it: src/draw-it/src/device/mod.rs, tegne:
src/tegne/src/device/mod.rs, which implement the same frame protocol), of
the GPU picker (src/draw-it/src/device/pick.rs), of memory-type selection
(src/tegne/src/device/mod.rs, find_memory_type and allocate_buffer), and
of SPIR-V shader-module validation (draw-it, create_shader_module).

Native GPU calls (vkDestroyBuffer, vkQueueSubmit, ...) are represented as
events in a trace; the Device state keeps exactly the fields of the source
struct that the frame protocol mutates: the current-frame index, the
submission-fence signaled bits, and the three per-slot deferred
reclamation queues.
-/

/- FRAMES_IN_FLIGHT, from src/draw-it/src/device/mod.rs (tegne names it
IN_FLIGHT_FRAME_COUNT; both are 2). -/
def FRAMES_IN_FLIGHT : Nat := 2

/- Error kinds used by the embedded operations, from the engine error
modules (ErrorKind::InvalidShader, ErrorKind::UnsupportedMemoryType,
ErrorKind::NoSuitableGpu). -/
inductive ErrorKind where
  | InvalidShader
  | UnsupportedMemoryType
  | NoSuitableGpu
  deriving DecidableEq

/- ErrorType::Internal wrapper, from src/tegne error module usage
(allocate_buffer maps a missing memory type to
ErrorType::Internal(ErrorKind::UnsupportedMemoryType)). -/
inductive ErrorType where
  | Internal (kind : ErrorKind)
  deriving DecidableEq

/- Pipeline stage used by Device::submit (wait_dst_stage_mask is the single
entry PIPELINE_STAGE_COLOR_ATTACHMENT_OUTPUT_BIT). -/
inductive PipelineStage where
  | colorAttachmentOutput
  deriving DecidableEq

/- The per-slot binary semaphores of the Device (sync_acquire / sync_release
arrays, indexed by frame slot). -/
inductive Semaphore where
  | acquire (slot : Nat)
  | release (slot : Nat)
  deriving DecidableEq

/- The argument of vkQueueSubmit as built by Device::submit: wait
semaphores with their stage masks, the command buffers (identified here by
their frame slot), signal semaphores, and the fence (identified by its
frame slot) signaled on completion. -/
structure SubmitInfo where
  waitSemaphores : List Semaphore
  waitDstStageMask : List PipelineStage
  commandBuffers : List Nat
  signalSemaphores : List Semaphore
  signalFence : Nat
  deriving DecidableEq

/- Observable actions of the Device, in source order.  Physical frees
(vkDestroyPipeline / vkDestroyBuffer+vkFreeMemory / vkDestroyImage+
vkFreeMemory inside cleanup_resources) carry the slot whose queue
cleanup_resources is flushing (its `frame` argument); enqueue events
(free_buffer / destroy_pipeline) carry the slot that was current at the
call.  fenceWait records whether the fence was already signaled when the
wait began (a real wait blocks until the GPU signals; `signaled = false`
is the blocking case). -/
inductive Ev where
  | acquireImage (slot : Nat)
  | fenceWait (slot : Nat) (signaled : Bool)
  | fenceReset (slot : Nat)
  | cmdFree (slot : Nat)
  | cmdRecreate (slot : Nat)
  | cmdBegin (slot : Nat)
  | cmdEnd (slot : Nat)
  | queueSubmit (info : SubmitInfo)
  | enqueueBuffer (handle memory slot : Nat)
  | enqueuePipeline (handle slot : Nat)
  | physFreePipeline (handle slot : Nat)
  | physFreeBuffer (handle memory slot : Nat)
  | physFreeImage (handle memory slot : Nat)
  deriving DecidableEq

/- The mutable frame-protocol state of the Device struct: current_frame,
the signaled bits of the sync_submit fences, and the three per-slot
deferred reclamation queues (destroyed_pipelines, destroyed_buffers,
destroyed_images), each a length-FRAMES_IN_FLIGHT list of queues as in the
source ([Vec; FRAMES_IN_FLIGHT] resp. Vec of Vec). -/
structure DeviceState where
  currentFrame : Nat
  fences : List Bool
  destroyedPipelines : List (List Nat)
  destroyedBuffers : List (List (Nat × Nat))
  destroyedImages : List (List (Nat × Nat))
  deriving DecidableEq

/- Device::new: current_frame starts at 0, both submission fences are
created with FENCE_CREATE_SIGNALED_BIT (signaled), and all reclamation
queues start empty. -/
def initState : DeviceState :=
  { currentFrame := 0
  , fences := [true, true]
  , destroyedPipelines := [[], []]
  , destroyedBuffers := [[], []]
  , destroyedImages := [[], []] }

/- The operations of the frame protocol that the claims quantify over. -/
inductive DeviceOp where
  | nextFrame
  | submit
  | freeBuffer (handle memory : Nat)
  | destroyPipeline (handle : Nat)
  deriving DecidableEq

/- The native frees performed by Device::cleanup_resources(frame): first
every queued pipeline, then every queued (buffer, memory) pair, then every
queued (image, memory) pair, in queue order. -/
def flushEvents (frame : Nat) (pipes : List Nat)
    (bufs imgs : List (Nat × Nat)) : List Ev :=
  pipes.map (fun p => Ev.physFreePipeline p frame)
    ++ bufs.map (fun bm => Ev.physFreeBuffer bm.1 bm.2 frame)
    ++ imgs.map (fun im => Ev.physFreeImage im.1 im.2 frame)

/- Device::cleanup_resources(frame): destroys everything in the given
slot's three queues and clears them. -/
def cleanupResources (s : DeviceState) (frame : Nat) : DeviceState × List Ev :=
  ({ s with
      destroyedPipelines := s.destroyedPipelines.set frame []
    , destroyedBuffers := s.destroyedBuffers.set frame []
    , destroyedImages := s.destroyedImages.set frame [] }
  , flushEvents frame (s.destroyedPipelines.getD frame [])
      (s.destroyedBuffers.getD frame []) (s.destroyedImages.getD frame []))

/- Device::next_frame: advance the slot index modulo FRAMES_IN_FLIGHT,
acquire the next swapchain image signaling the new slot's acquire
semaphore, wait on and reset the new slot's submission fence, free the
slot's command buffer, flush the slot's reclamation queues, then
reallocate and begin a fresh command buffer and store the new index.
The GPU side is abstracted: the fence's signaled bit is observed at the
wait and cleared at the reset. -/
def nextFrameStep (s : DeviceState) : DeviceState × List Ev :=
  let current := (s.currentFrame + 1) % FRAMES_IN_FLIGHT
  let signaled := s.fences.getD current false
  let s1 := { s with fences := s.fences.set current false }
  let flushed := cleanupResources s1 current
  ({ flushed.1 with currentFrame := current }
  , [Ev.acquireImage current, Ev.fenceWait current signaled,
     Ev.fenceReset current, Ev.cmdFree current]
      ++ flushed.2
      ++ [Ev.cmdRecreate current, Ev.cmdBegin current])

/- Device::submit: ends the current slot's command buffer and submits it,
waiting on the slot's acquire semaphore at the color-attachment-output
stage, signaling the slot's release semaphore and the slot's submission
fence.  GPU completion is abstracted as the fence bit becoming signaled. -/
def submitStep (s : DeviceState) : DeviceState × List Ev :=
  let current := s.currentFrame
  ({ s with fences := s.fences.set current true }
  , [Ev.cmdEnd current,
     Ev.queueSubmit
       { waitSemaphores := [Semaphore.acquire current]
       , waitDstStageMask := [PipelineStage.colorAttachmentOutput]
       , commandBuffers := [current]
       , signalSemaphores := [Semaphore.release current]
       , signalFence := current }])

/- Device::free_buffer: pushes the (handle, memory) pair onto the current
slot's destroyed_buffers queue; nothing is freed now. -/
def freeBufferStep (handle memory : Nat) (s : DeviceState) :
    DeviceState × List Ev :=
  let current := s.currentFrame
  ({ s with
      destroyedBuffers := s.destroyedBuffers.set current
        ((s.destroyedBuffers.getD current []) ++ [(handle, memory)]) }
  , [Ev.enqueueBuffer handle memory current])

/- Device::destroy_pipeline: pushes the pipeline handle onto the current
slot's destroyed_pipelines queue; nothing is freed now. -/
def destroyPipelineStep (handle : Nat) (s : DeviceState) :
    DeviceState × List Ev :=
  let current := s.currentFrame
  ({ s with
      destroyedPipelines := s.destroyedPipelines.set current
        ((s.destroyedPipelines.getD current []) ++ [handle]) }
  , [Ev.enqueuePipeline handle current])

def deviceStep (op : DeviceOp) (s : DeviceState) : DeviceState × List Ev :=
  match op with
  | DeviceOp.nextFrame => nextFrameStep s
  | DeviceOp.submit => submitStep s
  | DeviceOp.freeBuffer h m => freeBufferStep h m s
  | DeviceOp.destroyPipeline h => destroyPipelineStep h s

/- Runs a sequence of Device operations, collecting the emitted events. -/
def deviceRun (s : DeviceState) : List DeviceOp → DeviceState × List Ev
  | [] => (s, [])
  | op :: ops =>
    let first := deviceStep op s
    let rest := deviceRun first.1 ops
    (rest.1, first.2 ++ rest.2)

/- Drop for Device: cleanup_resources is called for every slot in order
(0 then 1), flushing whatever is still queued. -/
def dropEvents (s : DeviceState) : List Ev :=
  (cleanupResources s 0).2 ++ (cleanupResources (cleanupResources s 0).1 1).2

/- The event trace of a run of the frame protocol from a fresh Device. -/
def deviceTrace (ops : List DeviceOp) : List Ev :=
  (deviceRun initState ops).2

/- The event trace of a run followed by Device drop. -/
def fullTrace (ops : List DeviceOp) : List Ev :=
  deviceTrace ops ++ dropEvents (deviceRun initState ops).1

example : (deviceRun initState [DeviceOp.nextFrame]).1.currentFrame = 1 := by
  decide

example :
    deviceTrace [DeviceOp.freeBuffer 5 7, DeviceOp.nextFrame, DeviceOp.nextFrame]
      = [Ev.enqueueBuffer 5 7 0,
         Ev.acquireImage 1, Ev.fenceWait 1 true, Ev.fenceReset 1, Ev.cmdFree 1,
         Ev.cmdRecreate 1, Ev.cmdBegin 1,
         Ev.acquireImage 0, Ev.fenceWait 0 true, Ev.fenceReset 0, Ev.cmdFree 0,
         Ev.physFreeBuffer 5 7 0,
         Ev.cmdRecreate 0, Ev.cmdBegin 0] := by
  decide

/- Helper: reading a slot after writing another slot (or the same one) of a
per-slot store. -/
theorem getD_set_self {α : Type} (l : List α) (i : Nat) (a d : α)
    (h : i < l.length) : (l.set i a).getD i d = a := by
  simp [List.getD_eq_getElem?_getD, List.getElem?_set_self h]

theorem getD_set_ne {α : Type} (l : List α) (i j : Nat) (a d : α)
    (h : i ≠ j) : (l.set i a).getD j d = l.getD j d := by
  simp [List.getD_eq_getElem?_getD, List.getElem?_set_ne h]

/- Structural well-formedness of a Device state: the index is in range and
the per-slot stores have exactly FRAMES_IN_FLIGHT slots, as established by
Device::new. -/
def WellFormed (s : DeviceState) : Prop :=
  s.currentFrame < FRAMES_IN_FLIGHT
    ∧ s.fences.length = FRAMES_IN_FLIGHT
    ∧ s.destroyedPipelines.length = FRAMES_IN_FLIGHT
    ∧ s.destroyedBuffers.length = FRAMES_IN_FLIGHT
    ∧ s.destroyedImages.length = FRAMES_IN_FLIGHT

instance (s : DeviceState) : Decidable (WellFormed s) := by
  unfold WellFormed; infer_instance

theorem wellFormed_initState : WellFormed initState := by decide

theorem wellFormed_deviceStep (op : DeviceOp) (s : DeviceState)
    (hs : WellFormed s) : WellFormed (deviceStep op s).1 := by
  obtain ⟨h1, h2, h3, h4, h5⟩ := hs
  cases op <;>
    simp_all [deviceStep, nextFrameStep, submitStep, freeBufferStep,
      destroyPipelineStep, cleanupResources, WellFormed, FRAMES_IN_FLIGHT] <;>
    omega

theorem wellFormed_deviceRun (ops : List DeviceOp) (s : DeviceState)
    (hs : WellFormed s) : WellFormed (deviceRun s ops).1 := by
  induction ops generalizing s with
  | nil => exact hs
  | cons op ops ih =>
    exact ih (deviceStep op s).1 (wellFormed_deviceStep op s hs)

/- A native GPU free event (any of the frees performed by
cleanup_resources). -/
def isPhysFree : Ev → Bool
  | Ev.physFreePipeline _ _ => true
  | Ev.physFreeBuffer _ _ _ => true
  | Ev.physFreeImage _ _ _ => true
  | _ => false

theorem currentFrame_run_replicate (k : Nat) (s : DeviceState)
    (h : s.currentFrame < FRAMES_IN_FLIGHT) :
    (deviceRun s (List.replicate k DeviceOp.nextFrame)).1.currentFrame
      = (s.currentFrame + k) % FRAMES_IN_FLIGHT := by
  induction k generalizing s with
  | zero =>
    show s.currentFrame = (s.currentFrame + 0) % FRAMES_IN_FLIGHT
    simp only [FRAMES_IN_FLIGHT] at h ⊢
    omega
  | succ k ih =>
    rw [List.replicate_succ]
    show (deviceRun (nextFrameStep s).1 (List.replicate k DeviceOp.nextFrame)).1.currentFrame = _
    rw [ih _ (by
      show (s.currentFrame + 1) % FRAMES_IN_FLIGHT < FRAMES_IN_FLIGHT
      simp only [FRAMES_IN_FLIGHT]
      omega)]
    show ((s.currentFrame + 1) % FRAMES_IN_FLIGHT + k) % FRAMES_IN_FLIGHT = _
    simp only [FRAMES_IN_FLIGHT]
    omega

/-- C3 counterexample: the claim says the k-th next_frame call makes slot
(k-1) mod FRAMES_IN_FLIGHT current, so the first call would make slot 0
current; but on a fresh Device (current_frame = 0) the first call advances
to slot (0+1) mod 2 = 1. -/
theorem next_frame_rotation_counterexample :
    ¬ ((deviceRun initState (List.replicate 1 DeviceOp.nextFrame)).1.currentFrame
        = (1 - 1) % FRAMES_IN_FLIGHT) := by
  decide

/-- C3 (amended): starting from a freshly constructed Device, the k-th
next_frame call makes slot k mod FRAMES_IN_FLIGHT current (the visited
sequence is 1,0,1,0,...), and every call advances the current-frame index
by exactly one modulo FRAMES_IN_FLIGHT = 2. -/
theorem next_frame_rotation :
    (∀ k, (deviceRun initState (List.replicate k DeviceOp.nextFrame)).1.currentFrame
        = k % FRAMES_IN_FLIGHT)
      ∧ (∀ s : DeviceState,
          (nextFrameStep s).1.currentFrame = (s.currentFrame + 1) % FRAMES_IN_FLIGHT)
      ∧ FRAMES_IN_FLIGHT = 2 := by
  refine ⟨fun k => ?_, fun s => rfl, rfl⟩
  rw [currentFrame_run_replicate k initState (by decide)]
  show (0 + k) % FRAMES_IN_FLIGHT = k % FRAMES_IN_FLIGHT
  rw [Nat.zero_add]

/-- C4: free_buffer (resp. destroy_pipeline) performs no GPU free at call
time: its only effect is appending the (handle, memory) pair (resp. the
pipeline handle) to the reclamation queue of the slot current at the call;
the other slots' queues, the current-frame index, the fences, and the
other queue families are unchanged, and the only emitted event is the
enqueue (in particular no physical-free event). -/
theorem free_defers_only_enqueue (s : DeviceState) (h m p : Nat)
    (hwf : WellFormed s) :
    ((freeBufferStep h m s).1.currentFrame = s.currentFrame
      ∧ (freeBufferStep h m s).1.fences = s.fences
      ∧ (freeBufferStep h m s).1.destroyedPipelines = s.destroyedPipelines
      ∧ (freeBufferStep h m s).1.destroyedImages = s.destroyedImages
      ∧ (freeBufferStep h m s).1.destroyedBuffers.getD s.currentFrame []
          = s.destroyedBuffers.getD s.currentFrame [] ++ [(h, m)]
      ∧ (∀ j, j ≠ s.currentFrame →
          (freeBufferStep h m s).1.destroyedBuffers.getD j []
            = s.destroyedBuffers.getD j [])
      ∧ (freeBufferStep h m s).2 = [Ev.enqueueBuffer h m s.currentFrame]
      ∧ (∀ e ∈ (freeBufferStep h m s).2, isPhysFree e = false))
    ∧ ((destroyPipelineStep p s).1.currentFrame = s.currentFrame
      ∧ (destroyPipelineStep p s).1.fences = s.fences
      ∧ (destroyPipelineStep p s).1.destroyedBuffers = s.destroyedBuffers
      ∧ (destroyPipelineStep p s).1.destroyedImages = s.destroyedImages
      ∧ (destroyPipelineStep p s).1.destroyedPipelines.getD s.currentFrame []
          = s.destroyedPipelines.getD s.currentFrame [] ++ [p]
      ∧ (∀ j, j ≠ s.currentFrame →
          (destroyPipelineStep p s).1.destroyedPipelines.getD j []
            = s.destroyedPipelines.getD j [])
      ∧ (destroyPipelineStep p s).2 = [Ev.enqueuePipeline p s.currentFrame]
      ∧ (∀ e ∈ (destroyPipelineStep p s).2, isPhysFree e = false)) := by
  obtain ⟨h1, h2, h3, h4, h5⟩ := hwf
  refine ⟨⟨rfl, rfl, rfl, rfl, ?_, ?_, rfl, ?_⟩, ⟨rfl, rfl, rfl, rfl, ?_, ?_, rfl, ?_⟩⟩
  · exact getD_set_self _ _ _ _ (by omega)
  · exact fun j hj => getD_set_ne _ _ _ _ _ (fun e => hj e.symm)
  · intro e he
    simp only [freeBufferStep, List.mem_singleton] at he
    subst he
    rfl
  · exact getD_set_self _ _ _ _ (by omega)
  · exact fun j hj => getD_set_ne _ _ _ _ _ (fun e => hj e.symm)
  · intro e he
    simp only [destroyPipelineStep, List.mem_singleton] at he
    subst he
    rfl

/-- C4 witness: the theorem applied at a concrete well-formed state. -/
theorem free_defers_only_enqueue_witness :
    (freeBufferStep 5 7 initState).1.destroyedBuffers.getD
        initState.currentFrame []
      = initState.destroyedBuffers.getD initState.currentFrame [] ++ [(5, 7)] :=
  (free_defers_only_enqueue initState 5 7 9 (by decide)).1.2.2.2.2.1

/-- C5: submit, with slot C current, ends recording of slot C's command
buffer and submits exactly that buffer to the graphics queue, waiting on
slot C's acquire semaphore staged at color-attachment-output, signaling
slot C's release semaphore and slot C's submission fence; the
current-frame index and the reclamation queues are unchanged. -/
theorem submit_uses_current_slot (s : DeviceState) :
    (submitStep s).2
        = [Ev.cmdEnd s.currentFrame,
           Ev.queueSubmit
             { waitSemaphores := [Semaphore.acquire s.currentFrame]
             , waitDstStageMask := [PipelineStage.colorAttachmentOutput]
             , commandBuffers := [s.currentFrame]
             , signalSemaphores := [Semaphore.release s.currentFrame]
             , signalFence := s.currentFrame }]
      ∧ (submitStep s).1.currentFrame = s.currentFrame
      ∧ (submitStep s).1.destroyedPipelines = s.destroyedPipelines
      ∧ (submitStep s).1.destroyedBuffers = s.destroyedBuffers
      ∧ (submitStep s).1.destroyedImages = s.destroyedImages :=
  ⟨rfl, rfl, rfl, rfl, rfl⟩

/-- C10: Device::new creates every submission fence in the signaled state
(FENCE_CREATE_SIGNALED_BIT), so with no submit ever performed the first
next_frame that rotates onto each of the two slots observes its fence
already signaled at the wait (the trace of two next_frame calls contains a
successful fence wait for slot 1 and then for slot 0 and no blocking
wait). -/
theorem fences_created_signaled :
    initState.fences = [true, true]
      ∧ initState.fences.length = FRAMES_IN_FLIGHT
      ∧ (deviceTrace [DeviceOp.nextFrame, DeviceOp.nextFrame]).filter
            (fun e => match e with
              | Ev.fenceWait _ _ => true
              | _ => false)
          = [Ev.fenceWait 1 true, Ev.fenceWait 0 true]
      ∧ (deviceTrace [DeviceOp.nextFrame, DeviceOp.nextFrame]).all
          (fun e => match e with
            | Ev.fenceWait _ signaled => signaled
            | _ => true) = true := by
  decide

/- Reading any slot after writing one slot of a per-slot store, in full
generality (a write to an out-of-range index is a no-op, as for Vec
indexing it would panic; reachable states always write in range). -/
theorem getD_set_cases {α : Type} (l : List α) (i j : Nat) (x d : α) :
    (l.set i x).getD j d = if i = j ∧ i < l.length then x else l.getD j d := by
  by_cases hij : i = j
  · subst hij
    by_cases hi : i < l.length
    · simp [getD_set_self l i x d hi, hi]
    · simp only [hi, and_false, if_false]
      rw [List.set_eq_of_length_le (by omega)]
  · simp [getD_set_ne l i j x d hij, hij]

theorem getD_out_of_range {α : Type} (l : List (List α)) (j : Nat)
    (h : l.length ≤ j) : l.getD j [] = [] := by
  simp [List.getD_eq_getElem?_getD, List.getElem?_eq_none h]

/- Number of occurrences of a buffer record in a slot's deferred queue. -/
def bufQueueCount (s : DeviceState) (h m slot : Nat) : Nat :=
  (s.destroyedBuffers.getD slot []).count (h, m)

/- Number of occurrences of a pipeline record in a slot's deferred queue. -/
def pipeQueueCount (s : DeviceState) (p slot : Nat) : Nat :=
  (s.destroyedPipelines.getD slot []).count p

theorem count_flush_enqueueBuffer (frame h m slot : Nat) (pipes : List Nat)
    (bufs imgs : List (Nat × Nat)) :
    (flushEvents frame pipes bufs imgs).count (Ev.enqueueBuffer h m slot) = 0 := by
  rw [List.count_eq_zero]
  simp [flushEvents, List.mem_map]

theorem count_flush_enqueuePipeline (frame p slot : Nat) (pipes : List Nat)
    (bufs imgs : List (Nat × Nat)) :
    (flushEvents frame pipes bufs imgs).count (Ev.enqueuePipeline p slot) = 0 := by
  rw [List.count_eq_zero]
  simp [flushEvents, List.mem_map]

theorem count_map_physFreeBuffer (frame h m slot : Nat)
    (bufs : List (Nat × Nat)) :
    (bufs.map fun bm => Ev.physFreeBuffer bm.1 bm.2 frame).count
        (Ev.physFreeBuffer h m slot)
      = if slot = frame then bufs.count (h, m) else 0 := by
  induction bufs with
  | nil => simp
  | cons b l ih =>
    simp only [List.map_cons, List.count_cons, ih, beq_iff_eq,
      Ev.physFreeBuffer.injEq, Prod.ext_iff]
    split_ifs <;> omega

theorem count_map_physFreePipeline (frame p slot : Nat) (pipes : List Nat) :
    (pipes.map fun q => Ev.physFreePipeline q frame).count
        (Ev.physFreePipeline p slot)
      = if slot = frame then pipes.count p else 0 := by
  induction pipes with
  | nil => simp
  | cons q l ih =>
    simp only [List.map_cons, List.count_cons, ih, beq_iff_eq,
      Ev.physFreePipeline.injEq]
    split_ifs <;> omega

theorem count_flush_physFreeBuffer (frame h m slot : Nat) (pipes : List Nat)
    (bufs imgs : List (Nat × Nat)) :
    (flushEvents frame pipes bufs imgs).count (Ev.physFreeBuffer h m slot)
      = if slot = frame then bufs.count (h, m) else 0 := by
  unfold flushEvents
  rw [List.count_append, List.count_append]
  have h1 : (pipes.map fun p => Ev.physFreePipeline p frame).count
      (Ev.physFreeBuffer h m slot) = 0 :=
    List.count_eq_zero.mpr (by simp [List.mem_map])
  have h3 : (imgs.map fun im => Ev.physFreeImage im.1 im.2 frame).count
      (Ev.physFreeBuffer h m slot) = 0 :=
    List.count_eq_zero.mpr (by simp [List.mem_map])
  rw [h1, h3, count_map_physFreeBuffer]
  omega

theorem count_flush_physFreePipeline (frame p slot : Nat) (pipes : List Nat)
    (bufs imgs : List (Nat × Nat)) :
    (flushEvents frame pipes bufs imgs).count (Ev.physFreePipeline p slot)
      = if slot = frame then pipes.count p else 0 := by
  unfold flushEvents
  rw [List.count_append, List.count_append]
  have h2 : (bufs.map fun bm => Ev.physFreeBuffer bm.1 bm.2 frame).count
      (Ev.physFreePipeline p slot) = 0 :=
    List.count_eq_zero.mpr (by simp [List.mem_map])
  have h3 : (imgs.map fun im => Ev.physFreeImage im.1 im.2 frame).count
      (Ev.physFreePipeline p slot) = 0 :=
    List.count_eq_zero.mpr (by simp [List.mem_map])
  rw [h2, h3, count_map_physFreePipeline]
  omega


/- The event block and successor state of next_frame, exposed for reuse:
the slot rotated onto is c := (currentFrame + 1) % FRAMES_IN_FLIGHT; the
block is acquire, fence wait, fence reset, command-buffer free, the three
queue flushes of slot c, then command-buffer recreate and begin. -/
theorem nextFrame_events (s : DeviceState) :
    (nextFrameStep s).2
      = [Ev.acquireImage ((s.currentFrame + 1) % FRAMES_IN_FLIGHT),
         Ev.fenceWait ((s.currentFrame + 1) % FRAMES_IN_FLIGHT)
           (s.fences.getD ((s.currentFrame + 1) % FRAMES_IN_FLIGHT) false),
         Ev.fenceReset ((s.currentFrame + 1) % FRAMES_IN_FLIGHT),
         Ev.cmdFree ((s.currentFrame + 1) % FRAMES_IN_FLIGHT)]
        ++ flushEvents ((s.currentFrame + 1) % FRAMES_IN_FLIGHT)
            (s.destroyedPipelines.getD ((s.currentFrame + 1) % FRAMES_IN_FLIGHT) [])
            (s.destroyedBuffers.getD ((s.currentFrame + 1) % FRAMES_IN_FLIGHT) [])
            (s.destroyedImages.getD ((s.currentFrame + 1) % FRAMES_IN_FLIGHT) [])
        ++ [Ev.cmdRecreate ((s.currentFrame + 1) % FRAMES_IN_FLIGHT),
            Ev.cmdBegin ((s.currentFrame + 1) % FRAMES_IN_FLIGHT)] := rfl

theorem nextFrame_state (s : DeviceState) :
    (nextFrameStep s).1
      = { currentFrame := (s.currentFrame + 1) % FRAMES_IN_FLIGHT
        , fences := s.fences.set ((s.currentFrame + 1) % FRAMES_IN_FLIGHT) false
        , destroyedPipelines :=
            s.destroyedPipelines.set ((s.currentFrame + 1) % FRAMES_IN_FLIGHT) []
        , destroyedBuffers :=
            s.destroyedBuffers.set ((s.currentFrame + 1) % FRAMES_IN_FLIGHT) []
        , destroyedImages :=
            s.destroyedImages.set ((s.currentFrame + 1) % FRAMES_IN_FLIGHT) [] } := rfl

theorem step_count_buf (op : DeviceOp) (s : DeviceState) (hwf : WellFormed s)
    (h m slot : Nat) :
    (deviceStep op s).2.count (Ev.enqueueBuffer h m slot) + bufQueueCount s h m slot
      = (deviceStep op s).2.count (Ev.physFreeBuffer h m slot)
          + bufQueueCount (deviceStep op s).1 h m slot := by
  obtain ⟨hc, hf, hp, hb, hi⟩ := hwf
  cases op with
  | nextFrame =>
    show (nextFrameStep s).2.count _ + _
        = (nextFrameStep s).2.count _ + bufQueueCount (nextFrameStep s).1 h m slot
    have hcur : (s.currentFrame + 1) % FRAMES_IN_FLIGHT < s.destroyedBuffers.length := by
      rw [hb]
      show _ % 2 < 2
      omega
    have henq : (nextFrameStep s).2.count (Ev.enqueueBuffer h m slot) = 0 := by
      rw [nextFrame_events]
      simp [List.count_append, List.count_cons, count_flush_enqueueBuffer]
    have hphys : (nextFrameStep s).2.count (Ev.physFreeBuffer h m slot)
        = if slot = (s.currentFrame + 1) % FRAMES_IN_FLIGHT
            then (s.destroyedBuffers.getD ((s.currentFrame + 1) % FRAMES_IN_FLIGHT) []).count (h, m)
            else 0 := by
      rw [nextFrame_events]
      simp [List.count_append, List.count_cons, count_flush_physFreeBuffer]
    have hnewq : bufQueueCount (nextFrameStep s).1 h m slot
        = if (s.currentFrame + 1) % FRAMES_IN_FLIGHT = slot
            then 0 else bufQueueCount s h m slot := by
      unfold bufQueueCount
      rw [nextFrame_state]
      show (List.set _ _ _ |>.getD slot []).count (h, m) = _
      rw [getD_set_cases]
      by_cases hslot : (s.currentFrame + 1) % FRAMES_IN_FLIGHT = slot
      · rw [if_pos ⟨hslot, hcur⟩, if_pos hslot]
        simp
      · rw [if_neg (fun hcon => hslot hcon.1), if_neg hslot]
    rw [henq, hphys, hnewq]
    by_cases hslot : (s.currentFrame + 1) % FRAMES_IN_FLIGHT = slot
    · rw [if_pos hslot.symm, if_pos hslot]
      unfold bufQueueCount
      rw [hslot]
      omega
    · rw [if_neg (fun e => hslot e.symm), if_neg hslot]
  | submit =>
    have henq : (submitStep s).2.count (Ev.enqueueBuffer h m slot) = 0 :=
      List.count_eq_zero.mpr (by simp [submitStep])
    have hphys : (submitStep s).2.count (Ev.physFreeBuffer h m slot) = 0 :=
      List.count_eq_zero.mpr (by simp [submitStep])
    show (submitStep s).2.count _ + _ = (submitStep s).2.count _ + _
    rw [henq, hphys]
    rfl
  | freeBuffer h' m' =>
    show ([Ev.enqueueBuffer h' m' s.currentFrame]).count _ + _
        = ([Ev.enqueueBuffer h' m' s.currentFrame]).count _ + bufQueueCount (freeBufferStep h' m' s).1 h m slot
    have hphys : ([Ev.enqueueBuffer h' m' s.currentFrame]).count (Ev.physFreeBuffer h m slot) = 0 :=
      List.count_eq_zero.mpr (by simp)
    have hnewq : bufQueueCount (freeBufferStep h' m' s).1 h m slot
        = bufQueueCount s h m slot
            + if s.currentFrame = slot ∧ (h', m') = (h, m) then 1 else 0 := by
      unfold bufQueueCount freeBufferStep
      show (List.set _ _ _ |>.getD slot []).count (h, m) = _
      rw [getD_set_cases]
      by_cases hslot : s.currentFrame = slot
      · rw [if_pos ⟨hslot, by omega⟩]
        subst hslot
        rw [List.count_append]
        simp only [List.count_cons, List.count_nil, beq_iff_eq, true_and]
        split_ifs <;> omega
      · rw [if_neg (fun hcon => hslot hcon.1),
          if_neg (fun hcon => hslot hcon.1)]
        omega
    rw [hphys, hnewq]
    simp only [List.count_cons, List.count_nil, beq_iff_eq, Ev.enqueueBuffer.injEq,
      Prod.ext_iff]
    split_ifs <;> omega
  | destroyPipeline p' =>
    have henq : ([Ev.enqueuePipeline p' s.currentFrame]).count (Ev.enqueueBuffer h m slot) = 0 :=
      List.count_eq_zero.mpr (by simp)
    have hphys : ([Ev.enqueuePipeline p' s.currentFrame]).count (Ev.physFreeBuffer h m slot) = 0 :=
      List.count_eq_zero.mpr (by simp)
    show ([Ev.enqueuePipeline p' s.currentFrame]).count _ + _
        = ([Ev.enqueuePipeline p' s.currentFrame]).count _ + bufQueueCount (destroyPipelineStep p' s).1 h m slot
    rw [henq, hphys]
    rfl

theorem step_count_pipe (op : DeviceOp) (s : DeviceState) (hwf : WellFormed s)
    (p slot : Nat) :
    (deviceStep op s).2.count (Ev.enqueuePipeline p slot) + pipeQueueCount s p slot
      = (deviceStep op s).2.count (Ev.physFreePipeline p slot)
          + pipeQueueCount (deviceStep op s).1 p slot := by
  obtain ⟨hc, hf, hp, hb, hi⟩ := hwf
  cases op with
  | nextFrame =>
    show (nextFrameStep s).2.count _ + _
        = (nextFrameStep s).2.count _ + pipeQueueCount (nextFrameStep s).1 p slot
    have hcur : (s.currentFrame + 1) % FRAMES_IN_FLIGHT
        < s.destroyedPipelines.length := by
      rw [hp]
      show _ % 2 < 2
      omega
    have henq : (nextFrameStep s).2.count (Ev.enqueuePipeline p slot) = 0 := by
      rw [nextFrame_events]
      simp [List.count_append, List.count_cons, count_flush_enqueuePipeline]
    have hphys : (nextFrameStep s).2.count (Ev.physFreePipeline p slot)
        = if slot = (s.currentFrame + 1) % FRAMES_IN_FLIGHT
            then (s.destroyedPipelines.getD ((s.currentFrame + 1) % FRAMES_IN_FLIGHT) []).count p
            else 0 := by
      rw [nextFrame_events]
      simp [List.count_append, List.count_cons, count_flush_physFreePipeline]
    have hnewq : pipeQueueCount (nextFrameStep s).1 p slot
        = if (s.currentFrame + 1) % FRAMES_IN_FLIGHT = slot
            then 0 else pipeQueueCount s p slot := by
      unfold pipeQueueCount
      rw [nextFrame_state]
      show (List.set _ _ _ |>.getD slot []).count p = _
      rw [getD_set_cases]
      by_cases hslot : (s.currentFrame + 1) % FRAMES_IN_FLIGHT = slot
      · rw [if_pos ⟨hslot, hcur⟩, if_pos hslot]
        simp
      · rw [if_neg (fun hcon => hslot hcon.1), if_neg hslot]
    rw [henq, hphys, hnewq]
    by_cases hslot : (s.currentFrame + 1) % FRAMES_IN_FLIGHT = slot
    · rw [if_pos hslot.symm, if_pos hslot]
      unfold pipeQueueCount
      rw [hslot]
      omega
    · rw [if_neg (fun e => hslot e.symm), if_neg hslot]
  | submit =>
    have henq : (submitStep s).2.count (Ev.enqueuePipeline p slot) = 0 :=
      List.count_eq_zero.mpr (by simp [submitStep])
    have hphys : (submitStep s).2.count (Ev.physFreePipeline p slot) = 0 :=
      List.count_eq_zero.mpr (by simp [submitStep])
    show (submitStep s).2.count _ + _ = (submitStep s).2.count _ + _
    rw [henq, hphys]
    rfl
  | freeBuffer h' m' =>
    have henq : ([Ev.enqueueBuffer h' m' s.currentFrame]).count
        (Ev.enqueuePipeline p slot) = 0 :=
      List.count_eq_zero.mpr (by simp)
    have hphys : ([Ev.enqueueBuffer h' m' s.currentFrame]).count
        (Ev.physFreePipeline p slot) = 0 :=
      List.count_eq_zero.mpr (by simp)
    show ([Ev.enqueueBuffer h' m' s.currentFrame]).count _ + _
        = ([Ev.enqueueBuffer h' m' s.currentFrame]).count _
            + pipeQueueCount (freeBufferStep h' m' s).1 p slot
    rw [henq, hphys]
    rfl
  | destroyPipeline p' =>
    show ([Ev.enqueuePipeline p' s.currentFrame]).count _ + _
        = ([Ev.enqueuePipeline p' s.currentFrame]).count _
            + pipeQueueCount (destroyPipelineStep p' s).1 p slot
    have hphys : ([Ev.enqueuePipeline p' s.currentFrame]).count
        (Ev.physFreePipeline p slot) = 0 :=
      List.count_eq_zero.mpr (by simp)
    have hnewq : pipeQueueCount (destroyPipelineStep p' s).1 p slot
        = pipeQueueCount s p slot
            + if s.currentFrame = slot ∧ p' = p then 1 else 0 := by
      unfold pipeQueueCount destroyPipelineStep
      show (List.set _ _ _ |>.getD slot []).count p = _
      rw [getD_set_cases]
      by_cases hslot : s.currentFrame = slot
      · rw [if_pos ⟨hslot, by omega⟩]
        subst hslot
        rw [List.count_append]
        simp only [List.count_cons, List.count_nil, beq_iff_eq, true_and]
        split_ifs <;> omega
      · rw [if_neg (fun hcon => hslot hcon.1),
          if_neg (fun hcon => hslot hcon.1)]
        omega
    rw [hphys, hnewq]
    simp only [List.count_cons, List.count_nil, beq_iff_eq, Ev.enqueuePipeline.injEq]
    split_ifs <;> omega

theorem run_count_buf (ops : List DeviceOp) (s : DeviceState)
    (hwf : WellFormed s) (h m slot : Nat) :
    (deviceRun s ops).2.count (Ev.enqueueBuffer h m slot) + bufQueueCount s h m slot
      = (deviceRun s ops).2.count (Ev.physFreeBuffer h m slot)
          + bufQueueCount (deviceRun s ops).1 h m slot := by
  induction ops generalizing s with
  | nil => rfl
  | cons op ops ih =>
    show ((deviceStep op s).2 ++ (deviceRun (deviceStep op s).1 ops).2).count _ + _
        = ((deviceStep op s).2 ++ (deviceRun (deviceStep op s).1 ops).2).count _
            + bufQueueCount (deviceRun (deviceStep op s).1 ops).1 h m slot
    rw [List.count_append, List.count_append]
    have h1 := step_count_buf op s hwf h m slot
    have h2 := ih (deviceStep op s).1 (wellFormed_deviceStep op s hwf)
    omega

theorem run_count_pipe (ops : List DeviceOp) (s : DeviceState)
    (hwf : WellFormed s) (p slot : Nat) :
    (deviceRun s ops).2.count (Ev.enqueuePipeline p slot) + pipeQueueCount s p slot
      = (deviceRun s ops).2.count (Ev.physFreePipeline p slot)
          + pipeQueueCount (deviceRun s ops).1 p slot := by
  induction ops generalizing s with
  | nil => rfl
  | cons op ops ih =>
    show ((deviceStep op s).2 ++ (deviceRun (deviceStep op s).1 ops).2).count _ + _
        = ((deviceStep op s).2 ++ (deviceRun (deviceStep op s).1 ops).2).count _
            + pipeQueueCount (deviceRun (deviceStep op s).1 ops).1 p slot
    rw [List.count_append, List.count_append]
    have h1 := step_count_pipe op s hwf p slot
    have h2 := ih (deviceStep op s).1 (wellFormed_deviceStep op s hwf)
    omega

theorem count_drop_physFreeBuffer (s : DeviceState) (hwf : WellFormed s)
    (h m slot : Nat) :
    (dropEvents s).count (Ev.physFreeBuffer h m slot)
      = bufQueueCount s h m slot := by
  obtain ⟨hc, hf, hp, hb, hi⟩ := hwf
  show ((cleanupResources s 0).2 ++ _).count _ = _
  rw [List.count_append]
  show (flushEvents 0 _ _ _).count _ + (flushEvents 1 _ _ _).count _ = _
  rw [count_flush_physFreeBuffer, count_flush_physFreeBuffer]
  show _ + (if _ then ((s.destroyedBuffers.set 0 []).getD 1 []).count (h, m) else 0) = _
  rw [getD_set_ne _ 0 1 _ _ (by omega)]
  unfold bufQueueCount
  match slot with
  | 0 => simp
  | 1 => simp
  | n + 2 =>
    rw [if_neg (by omega), if_neg (by omega),
      getD_out_of_range s.destroyedBuffers (n + 2) (by
        rw [hb]
        show 2 <= n + 2
        omega)]
    rfl

theorem count_drop_physFreePipeline (s : DeviceState) (hwf : WellFormed s)
    (p slot : Nat) :
    (dropEvents s).count (Ev.physFreePipeline p slot)
      = pipeQueueCount s p slot := by
  obtain ⟨hc, hf, hp, hb, hi⟩ := hwf
  show ((cleanupResources s 0).2 ++ _).count _ = _
  rw [List.count_append]
  show (flushEvents 0 _ _ _).count _ + (flushEvents 1 _ _ _).count _ = _
  rw [count_flush_physFreePipeline, count_flush_physFreePipeline]
  show _ + (if _ then ((s.destroyedPipelines.set 0 []).getD 1 []).count p else 0) = _
  rw [getD_set_ne _ 0 1 _ _ (by omega)]
  unfold pipeQueueCount
  match slot with
  | 0 => simp
  | 1 => simp
  | n + 2 =>
    rw [if_neg (by omega), if_neg (by omega),
      getD_out_of_range s.destroyedPipelines (n + 2) (by
        rw [hp]
        show 2 <= n + 2
        omega)]
    rfl

theorem count_drop_enqueueBuffer (s : DeviceState) (h m slot : Nat) :
    (dropEvents s).count (Ev.enqueueBuffer h m slot) = 0 := by
  show ((cleanupResources s 0).2 ++ _).count _ = _
  rw [List.count_append]
  show (flushEvents 0 _ _ _).count _ + (flushEvents 1 _ _ _).count _ = _
  rw [count_flush_enqueueBuffer, count_flush_enqueueBuffer]

theorem count_drop_enqueuePipeline (s : DeviceState) (p slot : Nat) :
    (dropEvents s).count (Ev.enqueuePipeline p slot) = 0 := by
  show ((cleanupResources s 0).2 ++ _).count _ = _
  rw [List.count_append]
  show (flushEvents 0 _ _ _).count _ + (flushEvents 1 _ _ _).count _ = _
  rw [count_flush_enqueuePipeline, count_flush_enqueuePipeline]

theorem bufQueueCount_init (h m slot : Nat) :
    bufQueueCount initState h m slot = 0 := by
  unfold bufQueueCount
  match slot with
  | 0 => rfl
  | 1 => rfl
  | n + 2 =>
    rw [getD_out_of_range _ _ (by
      show initState.destroyedBuffers.length ≤ n + 2
      simp [initState])]
    rfl

theorem pipeQueueCount_init (p slot : Nat) :
    pipeQueueCount initState p slot = 0 := by
  unfold pipeQueueCount
  match slot with
  | 0 => rfl
  | 1 => rfl
  | n + 2 =>
    rw [getD_out_of_range _ _ (by
      show initState.destroyedPipelines.length ≤ n + 2
      simp [initState])]
    rfl

/- Left-to-right scan state for one buffer record (handle, memory) and the
slot it was enqueued at: the first flag becomes true once the record has
been enqueued at that slot; the second becomes true once the slot's fence
has been waited on at a point where the first flag was already true. -/
def bufScanStep (h m slot : Nat) (st : Bool × Bool) (e : Ev) : Bool × Bool :=
  match e with
  | Ev.enqueueBuffer h' m' s' =>
    if h' = h && m' = m && s' = slot then (true, st.2) else st
  | Ev.fenceWait s' _ =>
    if s' = slot && st.1 then (st.1, true) else st
  | _ => st

/- Safety monitor: scanning the trace left to right, every physical free
of the buffer record tagged with the given slot must occur at a point
where the record has been enqueued at that slot and the slot's fence has
been waited on afterwards. -/
def bufSafe (h m slot : Nat) : Bool × Bool → List Ev → Bool
  | _, [] => true
  | st, e :: t =>
    (match e with
     | Ev.physFreeBuffer h' m' s' =>
       if h' = h && m' = m && s' = slot then st.2 else true
     | _ => true)
      && bufSafe h m slot (bufScanStep h m slot st e) t

/- The same monitor for a pipeline record. -/
def pipeScanStep (p slot : Nat) (st : Bool × Bool) (e : Ev) : Bool × Bool :=
  match e with
  | Ev.enqueuePipeline p' s' =>
    if p' = p && s' = slot then (true, st.2) else st
  | Ev.fenceWait s' _ =>
    if s' = slot && st.1 then (st.1, true) else st
  | _ => st

def pipeSafe (p slot : Nat) : Bool × Bool → List Ev → Bool
  | _, [] => true
  | st, e :: t =>
    (match e with
     | Ev.physFreePipeline p' s' =>
       if p' = p && s' = slot then st.2 else true
     | _ => true)
      && pipeSafe p slot (pipeScanStep p slot st e) t

theorem bufScanStep_mono1 (h m slot : Nat) (st : Bool × Bool) (e : Ev)
    (h1 : st.1 = true) : (bufScanStep h m slot st e).1 = true := by
  cases e <;> simp only [bufScanStep] <;> (try split) <;> simp [h1]

theorem bufScanStep_mono2 (h m slot : Nat) (st : Bool × Bool) (e : Ev)
    (h2 : st.2 = true) : (bufScanStep h m slot st e).2 = true := by
  cases e <;> simp only [bufScanStep] <;> (try split) <;> simp [h2]

theorem bufScan_mono1 (h m slot : Nat) (st : Bool × Bool) (t : List Ev)
    (h1 : st.1 = true) : (t.foldl (bufScanStep h m slot) st).1 = true := by
  induction t generalizing st with
  | nil => exact h1
  | cons e t ih => exact ih _ (bufScanStep_mono1 h m slot st e h1)

theorem bufScan_mono2 (h m slot : Nat) (st : Bool × Bool) (t : List Ev)
    (h2 : st.2 = true) : (t.foldl (bufScanStep h m slot) st).2 = true := by
  induction t generalizing st with
  | nil => exact h2
  | cons e t ih => exact ih _ (bufScanStep_mono2 h m slot st e h2)

theorem pipeScanStep_mono1 (p slot : Nat) (st : Bool × Bool) (e : Ev)
    (h1 : st.1 = true) : (pipeScanStep p slot st e).1 = true := by
  cases e <;> simp only [pipeScanStep] <;> (try split) <;> simp [h1]

theorem pipeScanStep_mono2 (p slot : Nat) (st : Bool × Bool) (e : Ev)
    (h2 : st.2 = true) : (pipeScanStep p slot st e).2 = true := by
  cases e <;> simp only [pipeScanStep] <;> (try split) <;> simp [h2]

theorem pipeScan_mono1 (p slot : Nat) (st : Bool × Bool) (t : List Ev)
    (h1 : st.1 = true) : (t.foldl (pipeScanStep p slot) st).1 = true := by
  induction t generalizing st with
  | nil => exact h1
  | cons e t ih => exact ih _ (pipeScanStep_mono1 p slot st e h1)

theorem pipeScan_mono2 (p slot : Nat) (st : Bool × Bool) (t : List Ev)
    (h2 : st.2 = true) : (t.foldl (pipeScanStep p slot) st).2 = true := by
  induction t generalizing st with
  | nil => exact h2
  | cons e t ih => exact ih _ (pipeScanStep_mono2 p slot st e h2)

theorem bufSafe_append (h m slot : Nat) (st : Bool × Bool) (t u : List Ev) :
    bufSafe h m slot st (t ++ u)
      = (bufSafe h m slot st t
          && bufSafe h m slot (t.foldl (bufScanStep h m slot) st) u) := by
  induction t generalizing st with
  | nil => simp [bufSafe]
  | cons e t ih =>
    show (_ && bufSafe h m slot _ (t ++ u)) = _
    rw [ih]
    simp [bufSafe, Bool.and_assoc]

theorem pipeSafe_append (p slot : Nat) (st : Bool × Bool) (t u : List Ev) :
    pipeSafe p slot st (t ++ u)
      = (pipeSafe p slot st t
          && pipeSafe p slot (t.foldl (pipeScanStep p slot) st) u) := by
  induction t generalizing st with
  | nil => simp [pipeSafe]
  | cons e t ih =>
    show (_ && pipeSafe p slot _ (t ++ u)) = _
    rw [ih]
    simp [pipeSafe, Bool.and_assoc]

theorem bufSafe_of_snd (h m slot : Nat) (st : Bool × Bool) (t : List Ev)
    (h2 : st.2 = true) : bufSafe h m slot st t = true := by
  induction t generalizing st with
  | nil => rfl
  | cons e t ih =>
    show (_ && _) = true
    rw [Bool.and_eq_true]
    refine ⟨?_, ih _ (bufScanStep_mono2 h m slot st e h2)⟩
    cases e <;> simp only [] <;> (try split) <;> simp [h2]

theorem pipeSafe_of_snd (p slot : Nat) (st : Bool × Bool) (t : List Ev)
    (h2 : st.2 = true) : pipeSafe p slot st t = true := by
  induction t generalizing st with
  | nil => rfl
  | cons e t ih =>
    show (_ && _) = true
    rw [Bool.and_eq_true]
    refine ⟨?_, ih _ (pipeScanStep_mono2 p slot st e h2)⟩
    cases e <;> simp only [] <;> (try split) <;> simp [h2]

theorem bufSafe_of_not_mem (h m slot : Nat) (st : Bool × Bool) (t : List Ev)
    (hnm : Ev.physFreeBuffer h m slot ∉ t) : bufSafe h m slot st t = true := by
  induction t generalizing st with
  | nil => rfl
  | cons e t ih =>
    show (_ && _) = true
    rw [Bool.and_eq_true]
    refine ⟨?_, ih _ (fun hmem => hnm (List.mem_cons_of_mem e hmem))⟩
    have hne : e ≠ Ev.physFreeBuffer h m slot :=
      fun hcon => hnm (hcon ▸ List.mem_cons_self e t)
    cases e <;> simp
    rename_i h' m' s'
    by_cases hall : h' = h ∧ m' = m ∧ s' = slot
    · exact absurd (by rw [hall.1, hall.2.1, hall.2.2]) hne
    · tauto

theorem pipeSafe_of_not_mem (p slot : Nat) (st : Bool × Bool) (t : List Ev)
    (hnm : Ev.physFreePipeline p slot ∉ t) : pipeSafe p slot st t = true := by
  induction t generalizing st with
  | nil => rfl
  | cons e t ih =>
    show (_ && _) = true
    rw [Bool.and_eq_true]
    refine ⟨?_, ih _ (fun hmem => hnm (List.mem_cons_of_mem e hmem))⟩
    have hne : e ≠ Ev.physFreePipeline p slot :=
      fun hcon => hnm (hcon ▸ List.mem_cons_self e t)
    cases e <;> simp
    rename_i p' s'
    by_cases hall : p' = p ∧ s' = slot
    · exact absurd (by rw [hall.1, hall.2]) hne
    · tauto

theorem mem_flush_physFreeBuffer (frame h m slot : Nat) (pipes : List Nat)
    (bufs imgs : List (Nat × Nat)) :
    Ev.physFreeBuffer h m slot ∈ flushEvents frame pipes bufs imgs
      ↔ (slot = frame ∧ (h, m) ∈ bufs) := by
  simp only [flushEvents, List.mem_append, List.mem_map]
  constructor
  · rintro ((⟨q, _, hq⟩ | ⟨bm, hbm, hbmeq⟩) | ⟨im, _, him⟩)
    · cases hq
    · simp only [Ev.physFreeBuffer.injEq] at hbmeq
      obtain ⟨e1, e2, e3⟩ := hbmeq
      refine ⟨e3.symm, ?_⟩
      have : bm = (h, m) := Prod.ext e1 e2
      exact this ▸ hbm
    · cases him
  · rintro ⟨hs, hmem⟩
    exact Or.inl (Or.inr ⟨(h, m), hmem, by rw [hs]⟩)

theorem mem_flush_physFreePipeline (frame p slot : Nat) (pipes : List Nat)
    (bufs imgs : List (Nat × Nat)) :
    Ev.physFreePipeline p slot ∈ flushEvents frame pipes bufs imgs
      ↔ (slot = frame ∧ p ∈ pipes) := by
  simp only [flushEvents, List.mem_append, List.mem_map]
  constructor
  · rintro ((⟨q, hq, hqeq⟩ | ⟨bm, _, hbm⟩) | ⟨im, _, him⟩)
    · simp only [Ev.physFreePipeline.injEq] at hqeq
      obtain ⟨e1, e2⟩ := hqeq
      exact ⟨e2.symm, e1 ▸ hq⟩
    · cases hbm
    · cases him
  · rintro ⟨hs, hmem⟩
    exact Or.inl (Or.inl ⟨p, hmem, by rw [hs]⟩)

theorem bufScan_pre4 (h m slot c : Nat) (sg : Bool) (st : Bool × Bool) :
    ([Ev.acquireImage c, Ev.fenceWait c sg, Ev.fenceReset c,
        Ev.cmdFree c].foldl (bufScanStep h m slot) st)
      = if c = slot ∧ st.1 = true then (st.1, true) else st := by
  by_cases hcs : c = slot
  · by_cases h1 : st.1 = true
    · simp [bufScanStep, hcs, h1]
    · simp [bufScanStep, hcs, h1]
  · simp [bufScanStep, hcs]

theorem pipeScan_pre4 (p slot c : Nat) (sg : Bool) (st : Bool × Bool) :
    ([Ev.acquireImage c, Ev.fenceWait c sg, Ev.fenceReset c,
        Ev.cmdFree c].foldl (pipeScanStep p slot) st)
      = if c = slot ∧ st.1 = true then (st.1, true) else st := by
  by_cases hcs : c = slot
  · by_cases h1 : st.1 = true
    · simp [pipeScanStep, hcs, h1]
    · simp [pipeScanStep, hcs, h1]
  · simp [pipeScanStep, hcs]

/- Invariant tying the monitor to the machine: if the record sits in the
given slot's deferred queue, the monitor has seen its enqueue. -/
def BufInv (h m slot : Nat) (s : DeviceState) (st : Bool × Bool) : Prop :=
  (h, m) ∈ s.destroyedBuffers.getD slot [] → st.1 = true

def PipeInv (p slot : Nat) (s : DeviceState) (st : Bool × Bool) : Prop :=
  p ∈ s.destroyedPipelines.getD slot [] → st.1 = true

theorem step_bufSafe (op : DeviceOp) (s : DeviceState) (h m slot : Nat)
    (st : Bool × Bool) (hinv : BufInv h m slot s st) :
    bufSafe h m slot st (deviceStep op s).2 = true
      ∧ BufInv h m slot (deviceStep op s).1
          ((deviceStep op s).2.foldl (bufScanStep h m slot) st) := by
  cases op with
  | nextFrame =>
    constructor
    · show bufSafe h m slot st (nextFrameStep s).2 = true
      rw [nextFrame_events, bufSafe_append, bufSafe_append, Bool.and_eq_true,
        Bool.and_eq_true]
      refine ⟨⟨?_, ?_⟩, ?_⟩
      · exact bufSafe_of_not_mem _ _ _ _ _ (by simp)
      · rw [bufScan_pre4]
        by_cases hcs : (s.currentFrame + 1) % FRAMES_IN_FLIGHT = slot
        · by_cases hmem : (h, m) ∈ s.destroyedBuffers.getD
              ((s.currentFrame + 1) % FRAMES_IN_FLIGHT) []
          · have h1 : st.1 = true := hinv (by rw [hcs] at hmem; exact hmem)
            rw [if_pos ⟨hcs, h1⟩]
            exact bufSafe_of_snd _ _ _ _ _ rfl
          · refine bufSafe_of_not_mem _ _ _ _ _ ?_
            rw [mem_flush_physFreeBuffer]
            rintro ⟨_, hmem2⟩
            exact hmem hmem2
        · refine bufSafe_of_not_mem _ _ _ _ _ ?_
          rw [mem_flush_physFreeBuffer]
          rintro ⟨hs2, _⟩
          exact hcs hs2.symm
      · exact bufSafe_of_not_mem _ _ _ _ _ (by simp)
    · intro hmem
      have hmem2 : (h, m) ∈ (s.destroyedBuffers.set
          ((s.currentFrame + 1) % FRAMES_IN_FLIGHT) []).getD slot [] := hmem
      rw [getD_set_cases] at hmem2
      by_cases hcond : (s.currentFrame + 1) % FRAMES_IN_FLIGHT = slot
          ∧ (s.currentFrame + 1) % FRAMES_IN_FLIGHT < s.destroyedBuffers.length
      · rw [if_pos hcond] at hmem2
        cases hmem2
      · rw [if_neg hcond] at hmem2
        exact bufScan_mono1 _ _ _ _ _ (hinv hmem2)
  | submit =>
    refine ⟨by simp [deviceStep, submitStep, bufSafe, bufScanStep], ?_⟩
    intro hmem
    exact bufScan_mono1 _ _ _ _ _ (hinv hmem)
  | freeBuffer h' m' =>
    refine ⟨by simp [deviceStep, freeBufferStep, bufSafe, bufScanStep], ?_⟩
    intro hmem
    show (bufScanStep h m slot st (Ev.enqueueBuffer h' m' s.currentFrame)).1 = true
    have hmem2 : (h, m) ∈ (s.destroyedBuffers.set s.currentFrame
        (s.destroyedBuffers.getD s.currentFrame [] ++ [(h', m')])).getD slot [] := hmem
    rw [getD_set_cases] at hmem2
    by_cases hcond : s.currentFrame = slot ∧ s.currentFrame < s.destroyedBuffers.length
    · rw [if_pos hcond] at hmem2
      rcases List.mem_append.mp hmem2 with hold | hnew
      · have h1 : st.1 = true := hinv (by rw [hcond.1] at hold; exact hold)
        exact bufScanStep_mono1 _ _ _ _ _ h1
      · have hp2 := Prod.ext_iff.mp (List.mem_singleton.mp hnew)
        have hh : h' = h := by simpa using hp2.1.symm
        have hmm : m' = m := by simpa using hp2.2.symm
        simp [bufScanStep, hh, hmm, hcond.1]
    · rw [if_neg hcond] at hmem2
      exact bufScanStep_mono1 _ _ _ _ _ (hinv hmem2)
  | destroyPipeline p' =>
    refine ⟨by simp [deviceStep, destroyPipelineStep, bufSafe, bufScanStep], ?_⟩
    intro hmem
    exact bufScan_mono1 _ _ _ _ _ (hinv hmem)

theorem step_pipeSafe (op : DeviceOp) (s : DeviceState) (p slot : Nat)
    (st : Bool × Bool) (hinv : PipeInv p slot s st) :
    pipeSafe p slot st (deviceStep op s).2 = true
      ∧ PipeInv p slot (deviceStep op s).1
          ((deviceStep op s).2.foldl (pipeScanStep p slot) st) := by
  cases op with
  | nextFrame =>
    constructor
    · show pipeSafe p slot st (nextFrameStep s).2 = true
      rw [nextFrame_events, pipeSafe_append, pipeSafe_append, Bool.and_eq_true,
        Bool.and_eq_true]
      refine ⟨⟨?_, ?_⟩, ?_⟩
      · exact pipeSafe_of_not_mem _ _ _ _ (by simp)
      · rw [pipeScan_pre4]
        by_cases hcs : (s.currentFrame + 1) % FRAMES_IN_FLIGHT = slot
        · by_cases hmem : p ∈ s.destroyedPipelines.getD
              ((s.currentFrame + 1) % FRAMES_IN_FLIGHT) []
          · have h1 : st.1 = true := hinv (by rw [hcs] at hmem; exact hmem)
            rw [if_pos ⟨hcs, h1⟩]
            exact pipeSafe_of_snd _ _ _ _ rfl
          · refine pipeSafe_of_not_mem _ _ _ _ ?_
            rw [mem_flush_physFreePipeline]
            rintro ⟨_, hmem2⟩
            exact hmem hmem2
        · refine pipeSafe_of_not_mem _ _ _ _ ?_
          rw [mem_flush_physFreePipeline]
          rintro ⟨hs2, _⟩
          exact hcs hs2.symm
      · exact pipeSafe_of_not_mem _ _ _ _ (by simp)
    · intro hmem
      have hmem2 : p ∈ (s.destroyedPipelines.set
          ((s.currentFrame + 1) % FRAMES_IN_FLIGHT) []).getD slot [] := hmem
      rw [getD_set_cases] at hmem2
      by_cases hcond : (s.currentFrame + 1) % FRAMES_IN_FLIGHT = slot
          ∧ (s.currentFrame + 1) % FRAMES_IN_FLIGHT < s.destroyedPipelines.length
      · rw [if_pos hcond] at hmem2
        cases hmem2
      · rw [if_neg hcond] at hmem2
        exact pipeScan_mono1 _ _ _ _ (hinv hmem2)
  | submit =>
    refine ⟨by simp [deviceStep, submitStep, pipeSafe, pipeScanStep], ?_⟩
    intro hmem
    exact pipeScan_mono1 _ _ _ _ (hinv hmem)
  | freeBuffer h' m' =>
    refine ⟨by simp [deviceStep, freeBufferStep, pipeSafe, pipeScanStep], ?_⟩
    intro hmem
    exact pipeScan_mono1 _ _ _ _ (hinv hmem)
  | destroyPipeline p' =>
    refine ⟨by simp [deviceStep, destroyPipelineStep, pipeSafe, pipeScanStep], ?_⟩
    intro hmem
    show (pipeScanStep p slot st (Ev.enqueuePipeline p' s.currentFrame)).1 = true
    have hmem2 : p ∈ (s.destroyedPipelines.set s.currentFrame
        (s.destroyedPipelines.getD s.currentFrame [] ++ [p'])).getD slot [] := hmem
    rw [getD_set_cases] at hmem2
    by_cases hcond : s.currentFrame = slot ∧ s.currentFrame < s.destroyedPipelines.length
    · rw [if_pos hcond] at hmem2
      rcases List.mem_append.mp hmem2 with hold | hnew
      · have h1 : st.1 = true := hinv (by rw [hcond.1] at hold; exact hold)
        exact pipeScanStep_mono1 _ _ _ _ h1
      · have hp2 : p = p' := List.mem_singleton.mp hnew
        simp [pipeScanStep, hp2.symm, hcond.1]
    · rw [if_neg hcond] at hmem2
      exact pipeScanStep_mono1 _ _ _ _ (hinv hmem2)

theorem run_bufSafe (ops : List DeviceOp) (s : DeviceState) (h m slot : Nat)
    (st : Bool × Bool) (hinv : BufInv h m slot s st) :
    bufSafe h m slot st (deviceRun s ops).2 = true
      ∧ BufInv h m slot (deviceRun s ops).1
          ((deviceRun s ops).2.foldl (bufScanStep h m slot) st) := by
  induction ops generalizing s st with
  | nil => exact ⟨rfl, hinv⟩
  | cons op ops ih =>
    obtain ⟨hsafe1, hinv1⟩ := step_bufSafe op s h m slot st hinv
    obtain ⟨hsafe2, hinv2⟩ := ih (deviceStep op s).1 _ hinv1
    constructor
    · show bufSafe h m slot st
          ((deviceStep op s).2 ++ (deviceRun (deviceStep op s).1 ops).2) = true
      rw [bufSafe_append, Bool.and_eq_true]
      exact ⟨hsafe1, hsafe2⟩
    · show BufInv h m slot (deviceRun (deviceStep op s).1 ops).1
          (((deviceStep op s).2 ++ (deviceRun (deviceStep op s).1 ops).2).foldl
            (bufScanStep h m slot) st)
      rw [List.foldl_append]
      exact hinv2

theorem run_pipeSafe (ops : List DeviceOp) (s : DeviceState) (p slot : Nat)
    (st : Bool × Bool) (hinv : PipeInv p slot s st) :
    pipeSafe p slot st (deviceRun s ops).2 = true
      ∧ PipeInv p slot (deviceRun s ops).1
          ((deviceRun s ops).2.foldl (pipeScanStep p slot) st) := by
  induction ops generalizing s st with
  | nil => exact ⟨rfl, hinv⟩
  | cons op ops ih =>
    obtain ⟨hsafe1, hinv1⟩ := step_pipeSafe op s p slot st hinv
    obtain ⟨hsafe2, hinv2⟩ := ih (deviceStep op s).1 _ hinv1
    constructor
    · show pipeSafe p slot st
          ((deviceStep op s).2 ++ (deviceRun (deviceStep op s).1 ops).2) = true
      rw [pipeSafe_append, Bool.and_eq_true]
      exact ⟨hsafe1, hsafe2⟩
    · show PipeInv p slot (deviceRun (deviceStep op s).1 ops).1
          (((deviceStep op s).2 ++ (deviceRun (deviceStep op s).1 ops).2).foldl
            (pipeScanStep p slot) st)
      rw [List.foldl_append]
      exact hinv2

theorem bufInv_init (h m slot : Nat) :
    BufInv h m slot initState (false, false) := by
  intro hmem
  exfalso
  match slot with
  | 0 => cases hmem
  | 1 => cases hmem
  | n + 2 =>
    rw [getD_out_of_range initState.destroyedBuffers (n + 2) (by
      show 2 <= n + 2
      omega)] at hmem
    cases hmem

theorem pipeInv_init (p slot : Nat) :
    PipeInv p slot initState (false, false) := by
  intro hmem
  exfalso
  match slot with
  | 0 => cases hmem
  | 1 => cases hmem
  | n + 2 =>
    rw [getD_out_of_range initState.destroyedPipelines (n + 2) (by
      show 2 <= n + 2
      omega)] at hmem
    cases hmem

/-- C1: for every run of the frame protocol from a fresh Device, resource
records enqueued by free_buffer or destroy_pipeline while a slot S was
current are physically freed exactly once and only by the flush of slot
S's own queue: over the full trace (the run followed by Device drop), the
number of physical frees of a record tagged with slot S equals the number
of its enqueues at slot S, for buffers and for pipelines (so no record is
freed twice, none is lost, and none migrates to another slot's queue);
and, outside Device drop, the safety monitors accept the run trace: every
physical free of a record tagged S happens only after the record was
enqueued at S and slot S's submission fence was waited on after that
enqueue. -/
theorem deferred_free_fence_gated (ops : List DeviceOp) :
    ((∀ h m slot, (fullTrace ops).count (Ev.physFreeBuffer h m slot)
        = (fullTrace ops).count (Ev.enqueueBuffer h m slot))
      ∧ (∀ p slot, (fullTrace ops).count (Ev.physFreePipeline p slot)
          = (fullTrace ops).count (Ev.enqueuePipeline p slot)))
    ∧ ((∀ h m slot, bufSafe h m slot (false, false) (deviceTrace ops) = true)
      ∧ (∀ p slot, pipeSafe p slot (false, false) (deviceTrace ops) = true)) := by
  have hwf0 := wellFormed_initState
  refine ⟨⟨fun h m slot => ?_, fun p slot => ?_⟩,
    ⟨fun h m slot => ?_, fun p slot => ?_⟩⟩
  · have h1 := run_count_buf ops initState hwf0 h m slot
    have h2 := count_drop_physFreeBuffer (deviceRun initState ops).1
      (wellFormed_deviceRun ops initState hwf0) h m slot
    have h3 := count_drop_enqueueBuffer (deviceRun initState ops).1 h m slot
    have h4 := bufQueueCount_init h m slot
    unfold fullTrace deviceTrace
    rw [List.count_append, List.count_append, h2, h3]
    omega
  · have h1 := run_count_pipe ops initState hwf0 p slot
    have h2 := count_drop_physFreePipeline (deviceRun initState ops).1
      (wellFormed_deviceRun ops initState hwf0) p slot
    have h3 := count_drop_enqueuePipeline (deviceRun initState ops).1 p slot
    have h4 := pipeQueueCount_init p slot
    unfold fullTrace deviceTrace
    rw [List.count_append, List.count_append, h2, h3]
    omega
  · exact (run_bufSafe ops initState h m slot (false, false)
      (bufInv_init h m slot)).1
  · exact (run_pipeSafe ops initState p slot (false, false)
      (pipeInv_init p slot)).1

/- The slot tag carried by a physical-free event. -/
def physFreeSlot : Ev → Option Nat
  | Ev.physFreePipeline _ s => some s
  | Ev.physFreeBuffer _ _ s => some s
  | Ev.physFreeImage _ _ s => some s
  | _ => none

theorem physFreeSlot_of_mem_flush (frame : Nat) (pipes : List Nat)
    (bufs imgs : List (Nat × Nat)) (e : Ev)
    (hmem : e ∈ flushEvents frame pipes bufs imgs) :
    physFreeSlot e = some frame := by
  simp only [flushEvents, List.mem_append, List.mem_map] at hmem
  rcases hmem with (⟨q, _, hq⟩ | ⟨bm, _, hbm⟩) | ⟨im, _, him⟩
  · rw [← hq]
    rfl
  · rw [← hbm]
    rfl
  · rw [← him]
    rfl

/-- C2: within every next_frame call, the newly current slot c (the index
advanced modulo FRAMES_IN_FLIGHT) has its submission fence waited on and
reset strictly before the slot's command buffer is freed and strictly
before any physical free from the slot's three reclamation queues
(pipelines, buffers, images) happens; moreover every physical free
emitted by the call flushes slot c's own queues. -/
theorem next_frame_wait_before_reclaim (s : DeviceState) (t1 t2 : List Ev)
    (e : Ev) (hdec : (nextFrameStep s).2 = t1 ++ e :: t2)
    (he : e = Ev.cmdFree ((s.currentFrame + 1) % FRAMES_IN_FLIGHT)
      ∨ isPhysFree e = true) :
    Ev.fenceWait ((s.currentFrame + 1) % FRAMES_IN_FLIGHT)
        (s.fences.getD ((s.currentFrame + 1) % FRAMES_IN_FLIGHT) false) ∈ t1
      ∧ Ev.fenceReset ((s.currentFrame + 1) % FRAMES_IN_FLIGHT) ∈ t1
      ∧ (isPhysFree e = true →
          physFreeSlot e = some ((s.currentFrame + 1) % FRAMES_IN_FLIGHT)) := by
  have hdec2 : Ev.acquireImage ((s.currentFrame + 1) % FRAMES_IN_FLIGHT)
      :: Ev.fenceWait ((s.currentFrame + 1) % FRAMES_IN_FLIGHT)
          (s.fences.getD ((s.currentFrame + 1) % FRAMES_IN_FLIGHT) false)
      :: Ev.fenceReset ((s.currentFrame + 1) % FRAMES_IN_FLIGHT)
      :: Ev.cmdFree ((s.currentFrame + 1) % FRAMES_IN_FLIGHT)
      :: (flushEvents ((s.currentFrame + 1) % FRAMES_IN_FLIGHT)
            (s.destroyedPipelines.getD ((s.currentFrame + 1) % FRAMES_IN_FLIGHT) [])
            (s.destroyedBuffers.getD ((s.currentFrame + 1) % FRAMES_IN_FLIGHT) [])
            (s.destroyedImages.getD ((s.currentFrame + 1) % FRAMES_IN_FLIGHT) [])
          ++ [Ev.cmdRecreate ((s.currentFrame + 1) % FRAMES_IN_FLIGHT),
              Ev.cmdBegin ((s.currentFrame + 1) % FRAMES_IN_FLIGHT)])
      = t1 ++ e :: t2 := hdec
  rcases t1 with _ | ⟨x, _ | ⟨y, _ | ⟨z, t1'⟩⟩⟩
  · rw [List.nil_append] at hdec2
    obtain ⟨he1, _⟩ := List.cons.injEq .. |>.mp hdec2
    rcases he with hfree | hphys
    · rw [← he1] at hfree
      cases hfree
    · rw [← he1] at hphys
      cases hphys
  · simp only [List.cons_append, List.nil_append, List.cons.injEq] at hdec2
    obtain ⟨_, he1, _⟩ := hdec2
    rcases he with hfree | hphys
    · rw [← he1] at hfree
      cases hfree
    · rw [← he1] at hphys
      cases hphys
  · simp only [List.cons_append, List.nil_append, List.cons.injEq] at hdec2
    obtain ⟨_, _, he1, _⟩ := hdec2
    rcases he with hfree | hphys
    · rw [← he1] at hfree
      cases hfree
    · rw [← he1] at hphys
      cases hphys
  · simp only [List.cons_append, List.cons.injEq] at hdec2
    obtain ⟨hx, hy, hz, hrest⟩ := hdec2
    refine ⟨?_, ?_, ?_⟩
    · rw [← hy]
      exact List.mem_cons_of_mem x (List.mem_cons_self _ _)
    · rw [← hz]
      exact List.mem_cons_of_mem x (List.mem_cons_of_mem y (List.mem_cons_self _ _))
    · intro hphys
      have hemem : e ∈ t1' ++ e :: t2 :=
        List.mem_append_right t1' (List.mem_cons_self e t2)
      rw [← hrest] at hemem
      rcases List.mem_cons.mp hemem with hfree | hemem2
      · rw [hfree] at hphys
        cases hphys
      · rcases List.mem_append.mp hemem2 with hflush | hsuffix
        · exact physFreeSlot_of_mem_flush _ _ _ _ e hflush
        · rcases List.mem_cons.mp hsuffix with h1 | hsuffix2
          · rw [h1] at hphys
            cases hphys
          · rcases List.mem_cons.mp hsuffix2 with h2 | h3
            · rw [h2] at hphys
              cases hphys
            · cases h3

/-- C2 witness: a next_frame from a concrete state whose new slot has a
queued buffer; the physical free of that buffer is preceded in the block
by the slot's fence wait and reset. -/
theorem next_frame_wait_before_reclaim_witness :
    Ev.fenceWait 0 true ∈ [Ev.acquireImage 0, Ev.fenceWait 0 true, Ev.fenceReset 0,
        Ev.cmdFree 0]
      ∧ Ev.fenceReset 0 ∈ [Ev.acquireImage 0, Ev.fenceWait 0 true, Ev.fenceReset 0,
        Ev.cmdFree 0]
      ∧ (isPhysFree (Ev.physFreeBuffer 5 7 0) = true →
          physFreeSlot (Ev.physFreeBuffer 5 7 0) = some 0) := by
  have h := next_frame_wait_before_reclaim
    { currentFrame := 1
    , fences := [true, true]
    , destroyedPipelines := [[], []]
    , destroyedBuffers := [[(5, 7)], []]
    , destroyedImages := [[], []] }
    [Ev.acquireImage 0, Ev.fenceWait 0 true, Ev.fenceReset 0, Ev.cmdFree 0]
    [Ev.cmdRecreate 0, Ev.cmdBegin 0]
    (Ev.physFreeBuffer 5 7 0)
    (by decide)
    (Or.inr (by decide))
  exact h

/- vk::MemoryType as used by find_memory_type: only its property_flags
bitmask matters. -/
structure MemoryType where
  property_flags : Nat
  deriving DecidableEq

/- Device::find_memory_type from src/tegne/src/device/mod.rs: enumerate
the reported memory types and take the first index whose bit is set in
the requirement bitmask and whose property flags contain all requested
flags (draw-it's version is the same search; it panics instead of
returning None when nothing matches). -/
def find_memory_type (memory_types : List MemoryType)
    (type_filter : Nat) (props : Nat) : Option Nat :=
  (memory_types.enum.find? fun it =>
      (type_filter &&& (1 <<< it.1) != 0)
        && (it.2.property_flags &&& props == props)).map
    fun t => t.1

/- The memory-type-selection step of Device::allocate_buffer
(src/tegne/src/device/mod.rs): a missing memory type becomes
ErrorType::Internal(ErrorKind::UnsupportedMemoryType). -/
def allocate_buffer_memory_type (memory_types : List MemoryType)
    (memory_type_bits : Nat) (access_flag : Nat) : Except ErrorType Nat :=
  match find_memory_type memory_types memory_type_bits access_flag with
  | none => Except.error (ErrorType.Internal ErrorKind.UnsupportedMemoryType)
  | some i => Except.ok i

/- A memory-type index satisfying both the requirement bitmask and the
requested property flags. -/
def MemTypeOk (memory_types : List MemoryType)
    (type_filter props i : Nat) : Prop :=
  ∃ mt, memory_types.get? i = some mt
    ∧ type_filter &&& (1 <<< i) ≠ 0
    ∧ mt.property_flags &&& props = props

/-- C7: for every (requirement-bitmask, access-pattern-flags) pair, if some
reported memory type has its bit set in the bitmask and contains all the
requested property flags, selection returns such an index and allocation
uses it; if no memory type qualifies, selection returns none and the
allocation fails with the unsupported-memory-type error, never picking a
non-conforming type. -/
theorem find_memory_type_spec (memory_types : List MemoryType)
    (type_filter props : Nat) :
    ((∃ i, MemTypeOk memory_types type_filter props i) →
      ∃ i, find_memory_type memory_types type_filter props = some i
        ∧ MemTypeOk memory_types type_filter props i
        ∧ allocate_buffer_memory_type memory_types type_filter props
            = Except.ok i)
    ∧ ((∀ i, ¬ MemTypeOk memory_types type_filter props i) →
      find_memory_type memory_types type_filter props = none
        ∧ allocate_buffer_memory_type memory_types type_filter props
            = Except.error (ErrorType.Internal ErrorKind.UnsupportedMemoryType)) := by
  constructor
  · rintro ⟨i, mt, hget, hbit, hprops⟩
    have hmem : (i, mt) ∈ memory_types.enum :=
      List.mk_mem_enum_iff_get?.mpr hget
    have hpred : ((type_filter &&& (1 <<< (i, mt).1) != 0)
        && ((i, mt).2.property_flags &&& props == props)) = true := by
      simp only [bne_iff_ne, beq_iff_eq, Bool.and_eq_true, decide_eq_true_eq]
      exact ⟨hbit, hprops⟩
    have hsome : (memory_types.enum.find? fun it =>
        (type_filter &&& (1 <<< it.1) != 0)
          && (it.2.property_flags &&& props == props)).isSome :=
      List.find?_isSome.mpr ⟨(i, mt), hmem, hpred⟩
    obtain ⟨⟨j, mt'⟩, hfind⟩ := Option.isSome_iff_exists.mp hsome
    have hpred' := List.find?_some hfind
    simp only [bne_iff_ne, beq_iff_eq, Bool.and_eq_true, decide_eq_true_eq] at hpred'
    have hmem' := List.mem_of_find?_eq_some hfind
    have hget' : memory_types.get? j = some mt' :=
      List.mk_mem_enum_iff_get?.mp hmem'
    refine ⟨j, ?_, ⟨mt', hget', hpred'.1, hpred'.2⟩, ?_⟩
    · unfold find_memory_type
      rw [hfind]
      rfl
    · unfold allocate_buffer_memory_type find_memory_type
      rw [hfind]
      rfl
  · intro hnone
    have hfind : (memory_types.enum.find? fun it =>
        (type_filter &&& (1 <<< it.1) != 0)
          && (it.2.property_flags &&& props == props)) = none := by
      rw [List.find?_eq_none]
      rintro ⟨i, mt⟩ hmem hpred
      simp only [bne_iff_ne, beq_iff_eq, Bool.and_eq_true, decide_eq_true_eq] at hpred
      exact hnone i ⟨mt, List.mk_mem_enum_iff_get?.mp hmem, hpred.1, hpred.2⟩
    constructor
    · unfold find_memory_type
      rw [hfind]
      rfl
    · unfold allocate_buffer_memory_type find_memory_type
      rw [hfind]
      rfl

/-- C7 witness: with memory types [flags 1, flags 6], bitmask 2 and
requested flags 6, index 1 is selected and allocation uses it; with the
single memory type [flags 1] and the same request, selection fails and
allocation reports the unsupported-memory-type error. -/
theorem find_memory_type_spec_witness :
    (∃ i, find_memory_type [⟨1⟩, ⟨6⟩] 2 6 = some i
      ∧ MemTypeOk [⟨1⟩, ⟨6⟩] 2 6 i
      ∧ allocate_buffer_memory_type [⟨1⟩, ⟨6⟩] 2 6 = Except.ok i)
    ∧ (find_memory_type [⟨1⟩] 2 6 = none
      ∧ allocate_buffer_memory_type [⟨1⟩] 2 6
          = Except.error (ErrorType.Internal ErrorKind.UnsupportedMemoryType)) := by
  constructor
  · exact (find_memory_type_spec [⟨1⟩, ⟨6⟩] 2 6).1
      ⟨1, ⟨6⟩, rfl, by decide, by decide⟩
  · refine (find_memory_type_spec [⟨1⟩] 2 6).2 ?_
    rintro i ⟨mt, hget, hbit, hprops⟩
    match i with
    | 0 =>
      have hmt : mt = ⟨1⟩ := by
        cases hget
        rfl
      rw [hmt] at hprops
      exact absurd hprops (by decide)
    | i + 1 => cases hget

/- The SPIR-V magic number checked by create_shader_module. -/
def SPIRV_MAGIC : Nat := 0x07230203

/- u32::swap_bytes on a word below 2^32 (byte constants written out:
65536 = 2^16, 16777216 = 2^24). -/
def swap_bytes32 (w : Nat) : Nat :=
  (w % 256) * 16777216 + (w / 256 % 256) * 65536
    + (w / 65536 % 256) * 256 + (w / 16777216 % 256)

/- Reading a byte stream as native little-endian u32 words, as the
read_exact into a Vec of u32 does on a little-endian host. -/
def toWords : List Nat → List Nat
  | b0 :: b1 :: b2 :: b3 :: rest =>
    (b0 + 256 * b1 + 65536 * b2 + 16777216 * b3) :: toWords rest
  | _ => []

/- Device::create_shader_module from src/draw-it/src/device/mod.rs:
reject when the byte length is not a multiple of 4 (the size >
usize::MAX guard can never fire for an in-memory slice); read the bytes
as little-endian words; if the stream is nonempty and the leading word
(code[0], written headD here) is the byte-swapped magic number, byte-swap
every word; reject when the stream is empty or the leading word is not
the magic number; otherwise the module is built from the words (returned
here). -/
def create_shader_module (source : List Nat) : Except ErrorKind (List Nat) :=
  let size := source.length
  if size % 4 ≠ 0 then Except.error ErrorKind.InvalidShader
  else
    let code := toWords source
    let code2 :=
      if code ≠ [] ∧ code.headD 0 = swap_bytes32 SPIRV_MAGIC
        then code.map swap_bytes32 else code
    if code2 = [] ∨ code2.headD 0 ≠ SPIRV_MAGIC
      then Except.error ErrorKind.InvalidShader
      else Except.ok code2

/- The same byte stream with every 4-byte word reversed. -/
def swapWordBytes : List Nat → List Nat
  | b0 :: b1 :: b2 :: b3 :: rest => b3 :: b2 :: b1 :: b0 :: swapWordBytes rest
  | l => l

theorem toWords_length : ∀ (src : List Nat), src.length % 4 = 0 →
    (toWords src).length = src.length / 4
  | [], _ => rfl
  | [b0], h => by simp at h
  | [b0, b1], h => by simp at h
  | [b0, b1, b2], h => by simp at h
  | b0 :: b1 :: b2 :: b3 :: rest, h => by
    have hr : rest.length % 4 = 0 := by
      simp only [List.length_cons] at h
      omega
    have ih := toWords_length rest hr
    simp only [toWords, List.length_cons, ih]
    omega

theorem swap_bytes32_word (b0 b1 b2 b3 : Nat) (h0 : b0 < 256) (h1 : b1 < 256)
    (h2 : b2 < 256) (h3 : b3 < 256) :
    swap_bytes32 (b0 + 256 * b1 + 65536 * b2 + 16777216 * b3)
      = b3 + 256 * b2 + 65536 * b1 + 16777216 * b0 := by
  unfold swap_bytes32
  omega

theorem toWords_swapWordBytes : ∀ (src : List Nat), src.length % 4 = 0 →
    (∀ b ∈ src, b < 256) →
    toWords (swapWordBytes src) = (toWords src).map swap_bytes32
  | [], _, _ => rfl
  | [b0], h, _ => by simp at h
  | [b0, b1], h, _ => by simp at h
  | [b0, b1, b2], h, _ => by simp at h
  | b0 :: b1 :: b2 :: b3 :: rest, h, hb => by
    have hr : rest.length % 4 = 0 := by
      simp only [List.length_cons] at h
      omega
    have hbr : ∀ b ∈ rest, b < 256 := fun b hbm =>
      hb b (by simp [hbm])
    have ih := toWords_swapWordBytes rest hr hbr
    show (b3 + 256 * b2 + 65536 * b1 + 16777216 * b0) :: toWords (swapWordBytes rest)
        = swap_bytes32 (b0 + 256 * b1 + 65536 * b2 + 16777216 * b3)
            :: (toWords rest).map swap_bytes32
    rw [ih, swap_bytes32_word b0 b1 b2 b3 (hb b0 (by simp)) (hb b1 (by simp))
      (hb b2 (by simp)) (hb b3 (by simp))]

theorem toWords_map_swap_swap : ∀ (src : List Nat), src.length % 4 = 0 →
    (∀ b ∈ src, b < 256) →
    ((toWords src).map swap_bytes32).map swap_bytes32 = toWords src
  | [], _, _ => rfl
  | [b0], h, _ => by simp at h
  | [b0, b1], h, _ => by simp at h
  | [b0, b1, b2], h, _ => by simp at h
  | b0 :: b1 :: b2 :: b3 :: rest, h, hb => by
    have hr : rest.length % 4 = 0 := by
      simp only [List.length_cons] at h
      omega
    have hbr : ∀ b ∈ rest, b < 256 := fun b hbm =>
      hb b (by simp [hbm])
    have ih := toWords_map_swap_swap rest hr hbr
    show swap_bytes32 (swap_bytes32 (b0 + 256 * b1 + 65536 * b2 + 16777216 * b3))
        :: ((toWords rest).map swap_bytes32).map swap_bytes32
      = (b0 + 256 * b1 + 65536 * b2 + 16777216 * b3) :: toWords rest
    rw [ih, swap_bytes32_word b0 b1 b2 b3 (hb b0 (by simp)) (hb b1 (by simp))
      (hb b2 (by simp)) (hb b3 (by simp)),
      swap_bytes32_word b3 b2 b1 b0 (hb b3 (by simp)) (hb b2 (by simp))
      (hb b1 (by simp)) (hb b0 (by simp))]

theorem swapWordBytes_length : ∀ (src : List Nat),
    (swapWordBytes src).length = src.length
  | [] => rfl
  | [_] => rfl
  | [_, _] => rfl
  | [_, _, _] => rfl
  | b0 :: b1 :: b2 :: b3 :: rest => by
    show (b3 :: b2 :: b1 :: b0 :: swapWordBytes rest).length = _
    simp only [List.length_cons, swapWordBytes_length rest]

theorem create_ok_of_magic (source : List Nat) (h4 : source.length % 4 = 0)
    (hmagic : (toWords source).head? = some SPIRV_MAGIC) :
    create_shader_module source = Except.ok (toWords source) := by
  obtain ⟨rest, hw⟩ : ∃ rest, toWords source = SPIRV_MAGIC :: rest := by
    cases htw : toWords source with
    | nil =>
      rw [htw] at hmagic
      cases hmagic
    | cons w rest =>
      rw [htw] at hmagic
      simp only [List.head?_cons, Option.some.injEq] at hmagic
      exact ⟨rest, by rw [hmagic]⟩
  simp only [create_shader_module]
  rw [if_neg (by simp [h4]), hw]
  rw [if_neg (show ¬(SPIRV_MAGIC :: rest ≠ []
      ∧ (SPIRV_MAGIC :: rest).headD 0 = swap_bytes32 SPIRV_MAGIC) from
    fun hcon2 => absurd hcon2.2
      (by decide : ¬(SPIRV_MAGIC = swap_bytes32 SPIRV_MAGIC)))]
  rw [if_neg (show ¬(SPIRV_MAGIC :: rest = []
      ∨ (SPIRV_MAGIC :: rest).headD 0 ≠ SPIRV_MAGIC) from
    fun hcon2 => hcon2.elim
      (fun hnil => absurd hnil (List.cons_ne_nil _ _))
      (fun hne => hne rfl))]

theorem create_swapped_ok (source : List Nat) (hbytes : ∀ b ∈ source, b < 256)
    (h4 : source.length % 4 = 0)
    (hmagic : (toWords source).head? = some SPIRV_MAGIC) :
    create_shader_module (swapWordBytes source) = Except.ok (toWords source) := by
  obtain ⟨rest, hw⟩ : ∃ rest, toWords source = SPIRV_MAGIC :: rest := by
    cases htw : toWords source with
    | nil =>
      rw [htw] at hmagic
      cases hmagic
    | cons w rest =>
      rw [htw] at hmagic
      simp only [List.head?_cons, Option.some.injEq] at hmagic
      exact ⟨rest, by rw [hmagic]⟩
  have hlen : (swapWordBytes source).length % 4 = 0 := by
    rw [swapWordBytes_length]
    exact h4
  have htw : toWords (swapWordBytes source) = (toWords source).map swap_bytes32 :=
    toWords_swapWordBytes source h4 hbytes
  have hdouble : ((SPIRV_MAGIC :: rest).map swap_bytes32).map swap_bytes32
      = SPIRV_MAGIC :: rest := by
    rw [← hw]
    exact toWords_map_swap_swap source h4 hbytes
  simp only [create_shader_module]
  rw [if_neg (by simp [hlen]), htw, hw]
  rw [if_pos (show List.map swap_bytes32 (SPIRV_MAGIC :: rest) ≠ []
      ∧ (List.map swap_bytes32 (SPIRV_MAGIC :: rest)).headD 0
          = swap_bytes32 SPIRV_MAGIC from ⟨by simp, rfl⟩)]
  rw [hdouble]
  rw [if_neg (show ¬(SPIRV_MAGIC :: rest = []
      ∨ (SPIRV_MAGIC :: rest).headD 0 ≠ SPIRV_MAGIC) from
    fun hcon2 => hcon2.elim
      (fun hnil => absurd hnil (List.cons_ne_nil _ _))
      (fun hne => hne rfl))]

theorem create_err_len (source : List Nat) (h4 : source.length % 4 ≠ 0) :
    create_shader_module source = Except.error ErrorKind.InvalidShader := by
  simp only [create_shader_module]
  rw [if_pos h4]

theorem create_err_badmagic (source : List Nat) (h4 : source.length % 4 = 0)
    (hm1 : (toWords source).head? ≠ some SPIRV_MAGIC)
    (hm2 : (toWords source).head? ≠ some (swap_bytes32 SPIRV_MAGIC)) :
    create_shader_module source = Except.error ErrorKind.InvalidShader := by
  simp only [create_shader_module]
  rw [if_neg (by simp [h4])]
  cases htw : toWords source with
  | nil =>
    rw [if_neg (show ¬((List.nil : List Nat) ≠ []
        ∧ (List.nil : List Nat).headD 0 = swap_bytes32 SPIRV_MAGIC) from
      fun hcon2 => hcon2.1 rfl)]
    rw [if_pos (Or.inl rfl)]
  | cons w rest =>
    rw [htw] at hm1 hm2
    simp only [List.head?_cons] at hm1 hm2
    have hm1w : w ≠ SPIRV_MAGIC := fun hcon => hm1 (by rw [hcon])
    have hm2w : w ≠ swap_bytes32 SPIRV_MAGIC := fun hcon => hm2 (by rw [hcon])
    rw [if_neg (show ¬(w :: rest ≠ []
        ∧ (w :: rest).headD 0 = swap_bytes32 SPIRV_MAGIC) from
      fun hcon2 => hm2w hcon2.2)]
    rw [if_pos (show w :: rest = [] ∨ (w :: rest).headD 0 ≠ SPIRV_MAGIC from
      Or.inr (fun hcon2 => hm1w hcon2))]

/-- C8: for byte streams (every byte below 256): a stream of length 4k
with k at least 1 whose leading little-endian word is the SPIR-V magic
number is accepted, producing its k words; the same stream with every
word byte-swapped is also accepted after internal correction, producing
the identical words (hence an identical word count); and streams whose
length is not divisible by 4, empty streams, and streams whose leading
word matches the magic neither directly nor after byte-swapping are
rejected with the invalid-shader error. -/
theorem create_shader_module_spec (source : List Nat)
    (hbytes : ∀ b ∈ source, b < 256) :
    (source.length % 4 = 0 → source ≠ [] →
        (toWords source).head? = some SPIRV_MAGIC →
        create_shader_module source = Except.ok (toWords source)
          ∧ create_shader_module (swapWordBytes source)
              = Except.ok (toWords source)
          ∧ (toWords source).length = source.length / 4
          ∧ 1 ≤ source.length / 4)
      ∧ (source.length % 4 ≠ 0 →
          create_shader_module source = Except.error ErrorKind.InvalidShader)
      ∧ (source = [] →
          create_shader_module source = Except.error ErrorKind.InvalidShader)
      ∧ (source.length % 4 = 0 →
          (toWords source).head? ≠ some SPIRV_MAGIC →
          (toWords source).head? ≠ some (swap_bytes32 SPIRV_MAGIC) →
          create_shader_module source = Except.error ErrorKind.InvalidShader) := by
  refine ⟨fun h4 hne hmagic => ?_, fun h4 => create_err_len source h4,
    fun hnil => ?_, fun h4 hm1 hm2 => create_err_badmagic source h4 hm1 hm2⟩
  · refine ⟨create_ok_of_magic source h4 hmagic,
      create_swapped_ok source hbytes h4 hmagic,
      toWords_length source h4, ?_⟩
    have hlen : source.length ≠ 0 := fun hcon =>
      hne (List.length_eq_zero.mp hcon)
    omega
  · rw [hnil]
    rfl

/-- C8 witness: the 4-byte little-endian magic stream is accepted with
one word, its byte-swapped form is accepted with the identical word, a
5-byte stream and the empty stream are rejected, and a 4-byte stream with
an unrecognized leading word is rejected. -/
theorem create_shader_module_spec_witness :
    create_shader_module [3, 2, 35, 7] = Except.ok [0x07230203]
      ∧ create_shader_module (swapWordBytes [3, 2, 35, 7])
          = Except.ok [0x07230203]
      ∧ create_shader_module [3, 2, 35, 7, 9]
          = Except.error ErrorKind.InvalidShader
      ∧ create_shader_module []
          = Except.error ErrorKind.InvalidShader
      ∧ create_shader_module [1, 2, 3, 4]
          = Except.error ErrorKind.InvalidShader := by
  have h1 := (create_shader_module_spec [3, 2, 35, 7] (by decide)).1
    (by decide) (by decide) (by decide)
  have h2 := (create_shader_module_spec [3, 2, 35, 7, 9] (by decide)).2.1
    (by decide)
  have h3 := (create_shader_module_spec [] (by decide)).2.2.1 rfl
  have h4 := (create_shader_module_spec [1, 2, 3, 4] (by decide)).2.2.2
    (by decide) (by decide) (by decide)
  exact ⟨h1.1, h1.2.1, h2, h3, h4⟩

/- vk::PHYSICAL_DEVICE_TYPE_DISCRETE_GPU. -/
def PHYSICAL_DEVICE_TYPE_DISCRETE_GPU : Nat := 2

/- ColorSpace::Srgb.flag() (VK_COLOR_SPACE_SRGB_NONLINEAR_KHR) and
ImageFormat::Sbgra.flag() (VK_FORMAT_B8G8R8A8_SRGB). -/
def SRGB_COLOR_SPACE : Nat := 0
def SBGRA_FORMAT : Nat := 50

/- The per-candidate property bundle consumed by pick_gpu
(src/draw-it/src/device/pick.rs).  The feature words are u32 as in
vk::PhysicalDeviceFeatures (the code checks them against 0); the
supports_present_mode / supports_msaa fields are the results of the
GPUProperties methods of the same names for the requested present mode
and multisample level (their bodies live in the instance module);
formats is the list of (color_space, format) pairs. -/
structure GPUProperties where
  device_type : Nat
  supports_extensions : Bool
  queue_index : Option Nat
  sampler_anisotropy : Nat
  fill_mode_non_solid : Nat
  wide_lines : Nat
  supports_present_mode : Bool
  supports_msaa : Bool
  formats : List (Nat × Nat)
  deriving DecidableEq

/- The scoring of one candidate in pick_gpu: base 1, +100 for a discrete
GPU, then forced to 0 by each missing mandatory capability, in source
order. -/
def gpu_score (props : GPUProperties) : Nat :=
  let score := 1
  let score := if props.device_type = PHYSICAL_DEVICE_TYPE_DISCRETE_GPU
    then score + 100 else score
  let score := if !props.supports_extensions then 0 else score
  let score := if props.queue_index = none then 0 else score
  let score := if props.sampler_anisotropy = 0 then 0 else score
  let score := if props.fill_mode_non_solid = 0 then 0 else score
  let score := if props.wide_lines = 0 then 0 else score
  let score := if !props.supports_present_mode then 0 else score
  let score := if !props.supports_msaa then 0 else score
  let score := if (props.formats.find? fun f =>
      (f.1 == SRGB_COLOR_SPACE) && (f.2 == SBGRA_FORMAT)).isNone
    then 0 else score
  score

/- The stable sort of (index, score) pairs performed by
scores.sort_by(a, b => b.score.cmp(a.score)): descending by score, ties
kept in enumeration order (insertion from the front places an earlier
element before later elements of equal score). -/
def insertByScoreDesc (x : Nat × Nat) : List (Nat × Nat) → List (Nat × Nat)
  | [] => [x]
  | y :: ys => if y.2 ≤ x.2 then x :: y :: ys else y :: insertByScoreDesc x ys

def sortByScoreDesc : List (Nat × Nat) → List (Nat × Nat)
  | [] => []
  | x :: xs => insertByScoreDesc x (sortByScoreDesc xs)

/- pick_gpu from src/draw-it/src/device/pick.rs: score every candidate in
enumeration order, sort descending by score (stable), drop the zero
scores, and return the index of the first remaining entry, or the
no-suitable-GPU error when none remains. -/
def pick_gpu (gpu_properties : List GPUProperties) : Except ErrorKind Nat :=
  let scores := gpu_properties.enum.map fun ip => (ip.1, gpu_score ip.2)
  let sorted := sortByScoreDesc scores
  let kept := sorted.filter fun sc => 0 < sc.2
  match kept.head? with
  | none => Except.error ErrorKind.NoSuitableGpu
  | some picked => Except.ok picked.1

/- The first maximum of an (index, score) list: the element a stable
descending sort brings to the front. -/
def headMax : List (Nat × Nat) → Option (Nat × Nat)
  | [] => none
  | x :: xs =>
    match headMax xs with
    | none => some x
    | some m => some (if m.2 ≤ x.2 then x else m)

theorem length_insertByScoreDesc (x : Nat × Nat) (l : List (Nat × Nat)) :
    (insertByScoreDesc x l).length = l.length + 1 := by
  induction l with
  | nil => rfl
  | cons y ys ih =>
    show (if y.2 ≤ x.2 then x :: y :: ys else y :: insertByScoreDesc x ys).length = _
    split_ifs
    · rfl
    · simp [List.length_cons, ih]

theorem length_sortByScoreDesc (l : List (Nat × Nat)) :
    (sortByScoreDesc l).length = l.length := by
  induction l with
  | nil => rfl
  | cons x xs ih =>
    show (insertByScoreDesc x (sortByScoreDesc xs)).length = _
    rw [length_insertByScoreDesc, ih]
    rfl

theorem mem_insertByScoreDesc (a x : Nat × Nat) (l : List (Nat × Nat)) :
    a ∈ insertByScoreDesc x l ↔ a = x ∨ a ∈ l := by
  induction l with
  | nil => simp [insertByScoreDesc]
  | cons y ys ih =>
    show a ∈ (if y.2 ≤ x.2 then x :: y :: ys else y :: insertByScoreDesc x ys) ↔ _
    split_ifs
    · simp
    · simp only [List.mem_cons, ih]
      tauto

theorem mem_sortByScoreDesc (a : Nat × Nat) (l : List (Nat × Nat)) :
    a ∈ sortByScoreDesc l ↔ a ∈ l := by
  induction l with
  | nil => simp [sortByScoreDesc]
  | cons x xs ih =>
    show a ∈ insertByScoreDesc x (sortByScoreDesc xs) ↔ _
    rw [mem_insertByScoreDesc]
    simp only [List.mem_cons, ih]

theorem headMax_eq_none (l : List (Nat × Nat)) :
    headMax l = none ↔ l = [] := by
  cases l with
  | nil => simp [headMax]
  | cons x xs =>
    simp only [headMax]
    cases headMax xs <;> simp

theorem head?_sortByScoreDesc (l : List (Nat × Nat)) :
    (sortByScoreDesc l).head? = headMax l := by
  induction l with
  | nil => rfl
  | cons x xs ih =>
    show (insertByScoreDesc x (sortByScoreDesc xs)).head? = _
    cases hs : sortByScoreDesc xs with
    | nil =>
      have hxs : xs = [] := by
        have := length_sortByScoreDesc xs
        rw [hs] at this
        exact List.length_eq_zero.mp this.symm
      subst hxs
      rfl
    | cons m rest =>
      have hm : headMax xs = some m := by
        rw [← ih, hs]
        rfl
      show (if m.2 ≤ x.2 then x :: m :: rest else m :: insertByScoreDesc x rest).head? = _
      simp only [headMax, hm]
      split_ifs <;> rfl

theorem headMax_spec (l : List (Nat × Nat)) (m : Nat × Nat)
    (hm : headMax l = some m) : m ∈ l ∧ ∀ a ∈ l, a.2 ≤ m.2 := by
  induction l generalizing m with
  | nil => cases hm
  | cons x xs ih =>
    simp only [headMax] at hm
    cases hmx : headMax xs with
    | none =>
      rw [hmx] at hm
      have hx : m = x := by
        cases hm
        rfl
      subst hx
      have hxs : xs = [] := (headMax_eq_none xs).mp hmx
      subst hxs
      exact ⟨List.mem_cons_self _ _, by simp⟩
    | some m0 =>
      rw [hmx] at hm
      obtain ⟨hm0, hall⟩ := ih m0 hmx
      have hmval : m = if m0.2 ≤ x.2 then x else m0 := by
        cases hm
        rfl
      by_cases hle : m0.2 ≤ x.2
      · rw [if_pos hle] at hmval
        subst hmval
        refine ⟨List.mem_cons_self _ _, ?_⟩
        intro a ha
        rcases List.mem_cons.mp ha with rfl | ha2
        · exact le_refl _
        · exact le_trans (hall a ha2) hle
      · rw [if_neg hle] at hmval
        subst hmval
        refine ⟨List.mem_cons_of_mem x hm0, ?_⟩
        intro a ha
        rcases List.mem_cons.mp ha with rfl | ha2
        · omega
        · exact hall a ha2

theorem headMax_first (l : List (Nat × Nat)) (m : Nat × Nat)
    (hm : headMax l = some m) :
    ∃ l1 l2, l = l1 ++ m :: l2 ∧ ∀ a ∈ l1, a.2 < m.2 := by
  induction l generalizing m with
  | nil => cases hm
  | cons x xs ih =>
    simp only [headMax] at hm
    cases hmx : headMax xs with
    | none =>
      rw [hmx] at hm
      have hx : m = x := by
        cases hm
        rfl
      subst hx
      exact ⟨[], xs, rfl, by simp⟩
    | some m0 =>
      rw [hmx] at hm
      have hmval : m = if m0.2 ≤ x.2 then x else m0 := by
        cases hm
        rfl
      by_cases hle : m0.2 ≤ x.2
      · rw [if_pos hle] at hmval
        subst hmval
        exact ⟨[], xs, rfl, by simp⟩
      · rw [if_neg hle] at hmval
        obtain ⟨l1, l2, hsplit, hlt⟩ := ih m0 hmx
        refine ⟨x :: l1, l2, ?_, ?_⟩
        · rw [hmval, hsplit]
          rfl
        · intro a ha
          rw [hmval]
          rcases List.mem_cons.mp ha with rfl | ha2
          · omega
          · exact hlt a ha2

/- The mandatory capabilities of pick_gpu, as a predicate. -/
def MandatoryOk (props : GPUProperties) : Prop :=
  props.supports_extensions = true
    ∧ props.queue_index ≠ none
    ∧ props.sampler_anisotropy ≠ 0
    ∧ props.fill_mode_non_solid ≠ 0
    ∧ props.wide_lines ≠ 0
    ∧ props.supports_present_mode = true
    ∧ props.supports_msaa = true
    ∧ ∃ f ∈ props.formats, f.1 = SRGB_COLOR_SPACE ∧ f.2 = SBGRA_FORMAT

instance (props : GPUProperties) : Decidable (MandatoryOk props) := by
  unfold MandatoryOk
  infer_instance

theorem find_format_isNone (props : GPUProperties) :
    (props.formats.find? fun f =>
        (f.1 == SRGB_COLOR_SPACE) && (f.2 == SBGRA_FORMAT)).isNone = true
      ↔ ¬ ∃ f ∈ props.formats, f.1 = SRGB_COLOR_SPACE ∧ f.2 = SBGRA_FORMAT := by
  rw [Option.isNone_iff_eq_none, List.find?_eq_none]
  simp only [Bool.and_eq_true, beq_iff_eq, not_exists]
  constructor
  · intro hall f
    intro hcon
    exact hall f hcon.1 ⟨hcon.2.1, hcon.2.2⟩
  · intro hne f hf hcon
    exact hne f ⟨hf, hcon.1, hcon.2⟩

theorem gpu_score_eq (props : GPUProperties) :
    gpu_score props
      = if MandatoryOk props
          then (if props.device_type = PHYSICAL_DEVICE_TYPE_DISCRETE_GPU
            then 101 else 1)
          else 0 := by
  simp only [gpu_score]
  by_cases h8 : ∃ f ∈ props.formats, f.1 = SRGB_COLOR_SPACE ∧ f.2 = SBGRA_FORMAT
  case neg =>
    rw [if_pos ((find_format_isNone props).mpr h8),
      if_neg (fun hcon => h8 hcon.2.2.2.2.2.2.2)]
  case pos =>
    rw [if_neg (fun hcon => ((find_format_isNone props).mp hcon) h8)]
    by_cases h7 : props.supports_msaa = true
    case neg =>
      rw [if_pos (by simp [Bool.not_eq_true] at h7; simp [h7]),
        if_neg (fun hcon => h7 hcon.2.2.2.2.2.2.1)]
    case pos =>
      rw [if_neg (by simp [h7])]
      by_cases h6 : props.supports_present_mode = true
      case neg =>
        rw [if_pos (by simp [Bool.not_eq_true] at h6; simp [h6]),
          if_neg (fun hcon => h6 hcon.2.2.2.2.2.1)]
      case pos =>
        rw [if_neg (by simp [h6])]
        by_cases h5 : props.wide_lines = 0
        case pos =>
          rw [if_pos h5, if_neg (fun hcon => hcon.2.2.2.2.1 h5)]
        case neg =>
          rw [if_neg h5]
          by_cases h4 : props.fill_mode_non_solid = 0
          case pos =>
            rw [if_pos h4, if_neg (fun hcon => hcon.2.2.2.1 h4)]
          case neg =>
            rw [if_neg h4]
            by_cases h3 : props.sampler_anisotropy = 0
            case pos =>
              rw [if_pos h3, if_neg (fun hcon => hcon.2.2.1 h3)]
            case neg =>
              rw [if_neg h3]
              by_cases h2 : props.queue_index = none
              case pos =>
                rw [if_pos h2, if_neg (fun hcon => hcon.2.1 h2)]
              case neg =>
                rw [if_neg h2]
                by_cases h1 : props.supports_extensions = true
                case neg =>
                  rw [if_pos (by simp [Bool.not_eq_true] at h1; simp [h1]),
                    if_neg (fun hcon => h1 hcon.1)]
                case pos =>
                  rw [if_neg (by simp [h1]),
                    if_pos (show MandatoryOk props from
                      ⟨h1, h2, h3, h4, h5, h6, h7, h8⟩)]

theorem gpu_scores_getElem (gpu_properties : List GPUProperties) (k : Nat)
    (hk : k < gpu_properties.length)
    (hk2 : k < (gpu_properties.enum.map fun ip => (ip.1, gpu_score ip.2)).length) :
    (gpu_properties.enum.map fun ip => (ip.1, gpu_score ip.2))[k]
      = (k, gpu_score gpu_properties[k]) := by
  simp [List.getElem_map, List.getElem_enum]

theorem gpu_scores_mem (gpu_properties : List GPUProperties) (a : Nat × Nat)
    (ha : a ∈ gpu_properties.enum.map fun ip => (ip.1, gpu_score ip.2)) :
    ∃ k, ∃ hk : k < gpu_properties.length,
      a = (k, gpu_score (gpu_properties[k])) := by
  obtain ⟨k, hk, hak⟩ := List.getElem_of_mem ha
  have hk2 : k < gpu_properties.length := by
    simpa [List.length_map, List.enum_length] using hk
  refine ⟨k, hk2, ?_⟩
  rw [← hak, gpu_scores_getElem gpu_properties k hk2 hk]

theorem gpu_scores_mem_of_lt (gpu_properties : List GPUProperties) (k : Nat)
    (hk : k < gpu_properties.length) :
    (k, gpu_score gpu_properties[k])
      ∈ gpu_properties.enum.map fun ip => (ip.1, gpu_score ip.2) := by
  have hk2 : k < (gpu_properties.enum.map
      fun ip => (ip.1, gpu_score ip.2)).length := by
    simpa [List.length_map, List.enum_length] using hk
  rw [← gpu_scores_getElem gpu_properties k hk hk2]
  exact List.getElem_mem hk2

/-- C9: pick_gpu scores each candidate as 1, plus 100 when it is a
discrete GPU, forced to 0 when any mandatory capability is missing
(extensions, usable queue family, anisotropic sampling, non-solid fill
mode, wide lines, requested present mode, requested multisample level,
sRGB-capable present format); when it returns an index, that candidate
has a positive score that is maximal, and every earlier candidate scores
strictly less (ties broken by enumeration order), so a zero-scoring
candidate is never returned; and it returns the no-suitable-GPU error
exactly when every candidate scores 0. -/
theorem pick_gpu_spec (gpu_properties : List GPUProperties) :
    (∀ props : GPUProperties,
        gpu_score props
          = if MandatoryOk props
              then (if props.device_type = PHYSICAL_DEVICE_TYPE_DISCRETE_GPU
                then 101 else 1)
              else 0)
      ∧ (∀ i, pick_gpu gpu_properties = Except.ok i →
          ∃ hi : i < gpu_properties.length,
            0 < gpu_score (gpu_properties[i])
              ∧ (∀ j (hj : j < gpu_properties.length),
                  gpu_score (gpu_properties[j])
                    ≤ gpu_score (gpu_properties[i]))
              ∧ (∀ j (hj : j < gpu_properties.length), j < i →
                  gpu_score (gpu_properties[j])
                    < gpu_score (gpu_properties[i])))
      ∧ (pick_gpu gpu_properties = Except.error ErrorKind.NoSuitableGpu
          ↔ ∀ j (hj : j < gpu_properties.length),
              gpu_score (gpu_properties[j]) = 0) := by
  refine ⟨fun props => gpu_score_eq props, ?_⟩
  cases hm : headMax (gpu_properties.enum.map fun ip => (ip.1, gpu_score ip.2)) with
  | none =>
    have hnil : (gpu_properties.enum.map fun ip => (ip.1, gpu_score ip.2)) = [] :=
      (headMax_eq_none _).mp hm
    have hpsnil : gpu_properties = [] := by
      have := congrArg List.length hnil
      simp only [List.length_map, List.enum_length] at this
      exact List.length_eq_zero.mp this
    subst hpsnil
    refine ⟨fun i hok => ?_, ?_⟩
    · cases hok
    · exact ⟨fun _ j hj => (by simp at hj), fun _ => rfl⟩
  | some m =>
    obtain ⟨hmmem, hmax⟩ := headMax_spec _ m hm
    obtain ⟨k, hk, hmk⟩ := gpu_scores_mem gpu_properties m hmmem
    have hsorthead : (sortByScoreDesc
        (gpu_properties.enum.map fun ip => (ip.1, gpu_score ip.2))).head?
        = some m := by
      rw [head?_sortByScoreDesc, hm]
    obtain ⟨rest, hsort⟩ : ∃ rest, sortByScoreDesc
        (gpu_properties.enum.map fun ip => (ip.1, gpu_score ip.2))
        = m :: rest := by
      cases hs : sortByScoreDesc
          (gpu_properties.enum.map fun ip => (ip.1, gpu_score ip.2)) with
      | nil =>
        rw [hs] at hsorthead
        cases hsorthead
      | cons a l =>
        rw [hs] at hsorthead
        simp only [List.head?_cons, Option.some.injEq] at hsorthead
        exact ⟨l, by rw [hsorthead]⟩
    by_cases hpos : 0 < m.2
    · have hpick : pick_gpu gpu_properties = Except.ok m.1 := by
        simp only [pick_gpu]
        rw [hsort, List.filter_cons_of_pos (by simpa using hpos)]
        rfl
      refine ⟨fun i hok => ?_, ?_⟩
      · rw [hpick] at hok
        have him : i = m.1 := by
          cases hok
          rfl
        have hik : i = k := by
          rw [him, hmk]
        subst hik
        have hscore : gpu_score (gpu_properties[i]) = m.2 := by
          rw [hmk]
        refine ⟨hk, (by omega), fun j hj => ?_, fun j hj hji => ?_⟩
        · have := hmax _ (gpu_scores_mem_of_lt gpu_properties j hj)
          simpa [hscore] using this
        · obtain ⟨l1, l2, hsplit, hlt⟩ := headMax_first _ m hm
          have hl1len : l1.length < (gpu_properties.enum.map
              fun ip => (ip.1, gpu_score ip.2)).length := by
            rw [hsplit]
            simp
          have hl1lt : l1.length < gpu_properties.length := by
            simpa [List.length_map, List.enum_length] using hl1len
          have hat' : (gpu_properties.enum.map
              fun ip => (ip.1, gpu_score ip.2))[l1.length]? = some m := by
            rw [hsplit, List.getElem?_append_right (le_refl _)]
            simp
          have hat : (gpu_properties.enum.map
              fun ip => (ip.1, gpu_score ip.2))[l1.length] = m := by
            rw [List.getElem?_eq_getElem hl1len] at hat'
            exact Option.some.inj hat' 
          have hkl1 : i = l1.length := by
            have := hat.symm.trans (gpu_scores_getElem gpu_properties l1.length hl1lt hl1len)
            rw [hmk] at this
            have := congrArg Prod.fst this
            simpa using this
          have hjlt : j < l1.length := by omega
          have hjlen : j < (gpu_properties.enum.map
              fun ip => (ip.1, gpu_score ip.2)).length := by
            simpa [List.length_map, List.enum_length] using hj
          have hjl' : (gpu_properties.enum.map
              fun ip => (ip.1, gpu_score ip.2))[j]? = l1[j]? := by
            rw [hsplit, List.getElem?_append_left hjlt]
          have hjl : (gpu_properties.enum.map
              fun ip => (ip.1, gpu_score ip.2))[j] = l1[j] := by
            rw [List.getElem?_eq_getElem hjlen, List.getElem?_eq_getElem hjlt] at hjl'
            exact Option.some.inj hjl' 
          have hjmem : ((j, gpu_score (gpu_properties[j])) : Nat × Nat) ∈ l1 := by
            rw [← gpu_scores_getElem gpu_properties j hj hjlen, hjl]
            exact List.getElem_mem hjlt
          have := hlt _ hjmem
          have hscore : gpu_score (gpu_properties[i]) = m.2 := by
            rw [hmk]
          simpa [hscore] using this
      · rw [hpick]
        constructor
        · intro hcon
          cases hcon
        · intro hall
          have := hall k hk
          have hm2 : m.2 = gpu_score (gpu_properties[k]) := by
            rw [hmk]
          omega
    · have hzero : ∀ a ∈ gpu_properties.enum.map fun ip => (ip.1, gpu_score ip.2),
          a.2 = 0 := by
        intro a ha
        have := hmax a ha
        omega
      have hpick : pick_gpu gpu_properties
          = Except.error ErrorKind.NoSuitableGpu := by
        simp only [pick_gpu]
        rw [List.filter_eq_nil_iff.mpr (fun a ha => by
          have ha2 : a ∈ gpu_properties.enum.map fun ip => (ip.1, gpu_score ip.2) :=
            (mem_sortByScoreDesc a _).mp ha
          have := hzero a ha2
          simp [this])]
        rfl
      refine ⟨fun i hok => ?_, ?_⟩
      · rw [hpick] at hok
        cases hok
      · rw [hpick]
        refine ⟨fun _ j hj => ?_, fun _ => rfl⟩
        have := hzero _ (gpu_scores_mem_of_lt gpu_properties j hj)
        simpa using this

/- Concrete candidates for the pick_gpu witness: one missing anisotropic
sampling (disqualified) and one fully capable discrete GPU. -/
def badGPU : GPUProperties :=
  { device_type := 2, supports_extensions := true, queue_index := some 0
  , sampler_anisotropy := 0, fill_mode_non_solid := 1, wide_lines := 1
  , supports_present_mode := true, supports_msaa := true
  , formats := [(0, 50)] }

def goodGPU : GPUProperties :=
  { device_type := 2, supports_extensions := true, queue_index := some 0
  , sampler_anisotropy := 1, fill_mode_non_solid := 1, wide_lines := 1
  , supports_present_mode := true, supports_msaa := true
  , formats := [(0, 50)] }

/-- C9 witness: with a disqualified discrete candidate first and a fully
capable one second, pick_gpu returns index 1, and the theorem yields its
positive maximal score with every earlier candidate scoring strictly
less. -/
theorem pick_gpu_spec_witness :
    ∃ hi : 1 < ([badGPU, goodGPU] : List GPUProperties).length,
      0 < gpu_score (([badGPU, goodGPU] : List GPUProperties)[1])
        ∧ (∀ j (hj : j < ([badGPU, goodGPU] : List GPUProperties).length),
            gpu_score (([badGPU, goodGPU] : List GPUProperties)[j])
              ≤ gpu_score (([badGPU, goodGPU] : List GPUProperties)[1]))
        ∧ (∀ j (hj : j < ([badGPU, goodGPU] : List GPUProperties).length), j < 1 →
            gpu_score (([badGPU, goodGPU] : List GPUProperties)[j])
              < gpu_score (([badGPU, goodGPU] : List GPUProperties)[1])) :=
  (pick_gpu_spec [badGPU, goodGPU]).2.1 1 rfl

/-- Modelled from the spec: the swapchain acquire/present staleness
handling.  The swapchain module, the native result-checking layer and the
error kinds for surface staleness are declared but not among the sources
here; per the spec, a stale/out-of-date surface reported by acquire or
present is a recoverable condition telling the caller to resize and
retry, and every other acquire/present failure is fatal. -/
inductive VkSurfaceResult where
  | success
  | errorOutOfDate
  | errorOther (code : Nat)
  deriving DecidableEq

/- The caller-visible outcome of a successful acquire/present: either
proceed, or resize and retry. -/
inductive SurfaceOutcome where
  | ok
  | resizeNeeded
  deriving DecidableEq

/- A fatal (unrecoverable) native failure, carrying the native code. -/
inductive FatalError where
  | native (code : Nat)
  deriving DecidableEq

/- Modelled from the spec: how Device::get_next_swapchain_image (acquire)
reports the native result to the caller. -/
def interpret_acquire_result : VkSurfaceResult → Except FatalError SurfaceOutcome
  | VkSurfaceResult.success => Except.ok SurfaceOutcome.ok
  | VkSurfaceResult.errorOutOfDate => Except.ok SurfaceOutcome.resizeNeeded
  | VkSurfaceResult.errorOther code => Except.error (FatalError.native code)

/- Modelled from the spec: how Device::present reports the native result
to the caller. -/
def interpret_present_result : VkSurfaceResult → Except FatalError SurfaceOutcome
  | VkSurfaceResult.success => Except.ok SurfaceOutcome.ok
  | VkSurfaceResult.errorOutOfDate => Except.ok SurfaceOutcome.resizeNeeded
  | VkSurfaceResult.errorOther code => Except.error (FatalError.native code)

/-- C6: an out-of-date surface reported by swapchain acquire or present is
observed by the caller as the distinct recoverable resize signal — not as
a fatal error and distinct from the plain success outcome — while every
other acquire/present failure surfaces as a fatal error. -/
theorem surface_out_of_date_recoverable :
    (interpret_acquire_result VkSurfaceResult.errorOutOfDate
        = Except.ok SurfaceOutcome.resizeNeeded
      ∧ interpret_present_result VkSurfaceResult.errorOutOfDate
        = Except.ok SurfaceOutcome.resizeNeeded)
    ∧ (interpret_acquire_result VkSurfaceResult.errorOutOfDate
        ≠ interpret_acquire_result VkSurfaceResult.success
      ∧ interpret_present_result VkSurfaceResult.errorOutOfDate
        ≠ interpret_present_result VkSurfaceResult.success
      ∧ (∀ e, interpret_acquire_result VkSurfaceResult.errorOutOfDate
          ≠ Except.error e)
      ∧ (∀ e, interpret_present_result VkSurfaceResult.errorOutOfDate
          ≠ Except.error e))
    ∧ (∀ code,
        interpret_acquire_result (VkSurfaceResult.errorOther code)
          = Except.error (FatalError.native code)
        ∧ interpret_present_result (VkSurfaceResult.errorOther code)
          = Except.error (FatalError.native code)) := by
  refine ⟨⟨rfl, rfl⟩, ⟨?_, ?_, fun e hcon => ?_, fun e hcon => ?_⟩,
    fun code => ⟨rfl, rfl⟩⟩
  · intro hcon
    cases hcon
  · intro hcon
    cases hcon
  · cases hcon
  · cases hcon
